import Mathlib

set_option maxHeartbeats 1000000
set_option maxRecDepth 4000

/-!
Verification development for the FlurryPP flux-reconstruction solver core.

The definitions below are shallow embeddings of the C++ sources:
  - `ele.cpp` (element kernels: RK update, squeezing, transforms, Newton
    reference-location search),
  - `solver.cpp` (the RK driver `solver::update` and the residual routing),
  - `superMesh.cpp` (tetrahedron clipping and supermesh integration).
Machine doubles are modelled by exact fields (`ℚ` where the code is pure
field arithmetic, `ℝ` where a square root appears).  Fatal errors
(`FatalError`) are modelled by `Except`.  Fixed-size arrays indexed by
loops `for (i=0; i<n; i++)` are modelled by total functions guarded by the
loop bound, or by lists.
-/

/-- Relevant members of the global `input` parameter object (`input.hpp`),
as read by the element and solver kernels. -/
structure FlowParams where
  dtType : ℕ
  dt : ℚ
  nRKSteps : ℕ
  RKa : List ℚ
  RKb : List ℚ
  time : ℚ
  rkTime : ℚ
  iter : ℕ
  motion : ℕ
  nDims : ℕ
  gamma : ℚ
  exps0 : ℚ
  CFL : ℚ
  /-- Model of `std::pow(rho, params->gamma)` as used by `ele::checkEntropy`:
  the map `rho ↦ rho^gamma`, kept abstract because `gamma` is a runtime
  parameter (for example `gamma = 2` gives `fun x => x^2`). -/
  powGamma : ℚ → ℚ

/-- Per-element state: the members of `class ele` that the RK update,
squeezing and time-step kernels read or write.  Tensors are total
functions guarded by the counts `nSpts`/`nFpts`/`nFields`. -/
structure EleState where
  nSpts : ℕ
  nFpts : ℕ
  nFields : ℕ
  order : ℕ
  U_spts : ℕ → ℕ → ℚ
  U_fpts : ℕ → ℕ → ℚ
  U0 : ℕ → ℕ → ℚ
  src_spts : ℕ → ℕ → ℚ
  divF_spts : ℕ → ℕ → ℕ → ℚ
  detJac_spts : ℕ → ℚ
  Uavg : ℕ → ℚ
  dt : ℚ
  waveSp_fpts : ℕ → ℚ
  dA_fpts : ℕ → ℚ

instance : Inhabited EleState :=
  ⟨0, 0, 0, 0, fun _ _ => 0, fun _ _ => 0, fun _ _ => 0, fun _ _ => 0,
   fun _ _ _ => 0, fun _ => 0, fun _ => 0, 0, fun _ => 0, fun _ => 0⟩

/-- Embedding of `ele::timeStepA` (ele.cpp): `U = U0 - rkVal*dt*divF[step]/detJac`
at every solution point and field, after refreshing `dt` from the global
time step unless local time stepping (`dtType == 2`) is active. -/
def timeStepA (p : FlowParams) (step : ℕ) (rkVal : ℚ) (e : EleState) : EleState :=
  let dtN := if p.dtType ≠ 2 then p.dt else e.dt
  { e with
    dt := dtN
    U_spts := fun spt i =>
      if spt < e.nSpts ∧ i < e.nFields then
        e.U0 spt i - rkVal * dtN * e.divF_spts step spt i / e.detJac_spts spt
      else e.U_spts spt i }

/-- Embedding of `ele::timeStepB` (ele.cpp): `U -= rkVal*dt*divF[step]/detJac`
at every solution point and field. -/
def timeStepB (p : FlowParams) (step : ℕ) (rkVal : ℚ) (e : EleState) : EleState :=
  let dtN := if p.dtType ≠ 2 then p.dt else e.dt
  { e with
    dt := dtN
    U_spts := fun spt i =>
      if spt < e.nSpts ∧ i < e.nFields then
        e.U_spts spt i - rkVal * dtN * e.divF_spts step spt i / e.detJac_spts spt
      else e.U_spts spt i }

/-- Embedding of `ele::timeStepA_source` (ele.cpp): the PMG variant adding
`src_spts` inside the parenthesis. -/
def timeStepA_source (p : FlowParams) (step : ℕ) (rkVal : ℚ) (e : EleState) : EleState :=
  let dtN := if p.dtType ≠ 2 then p.dt else e.dt
  { e with
    dt := dtN
    U_spts := fun spt i =>
      if spt < e.nSpts ∧ i < e.nFields then
        e.U0 spt i - rkVal * dtN * (e.divF_spts step spt i + e.src_spts spt i) / e.detJac_spts spt
      else e.U_spts spt i }

/-- Embedding of `ele::timeStepB_source` (ele.cpp). -/
def timeStepB_source (p : FlowParams) (step : ℕ) (rkVal : ℚ) (e : EleState) : EleState :=
  let dtN := if p.dtType ≠ 2 then p.dt else e.dt
  { e with
    dt := dtN
    U_spts := fun spt i =>
      if spt < e.nSpts ∧ i < e.nFields then
        e.U_spts spt i - rkVal * dtN * (e.divF_spts step spt i + e.src_spts spt i) / e.detJac_spts spt
      else e.U_spts spt i }

/-- Embedding of `ele::copyUspts_U0` (ele.cpp): `U0 = U_spts`. -/
def copyUspts_U0 (e : EleState) : EleState := { e with U0 := e.U_spts }

/-- Embedding of `ele::copyU0_Uspts` (ele.cpp): `U_spts = U0`. -/
def copyU0_Uspts (e : EleState) : EleState := { e with U_spts := e.U0 }

/-- Embedding of `ele::calcDt` (ele.cpp): the maximal wave speed over flux
points with positive area element, then `dt = CFL * getCFLLimit(order) *
2/(waveSp + 1e-10)`.  `getCFLLimit` lives outside src/, so its value table
is a parameter `cfl` of the model. -/
def eleCalcDt (cfl : ℕ → ℚ) (p : FlowParams) (e : EleState) : ℚ :=
  let waveSp := (List.range e.nFpts).foldl
    (fun acc fpt => if 0 < e.dA_fpts fpt then max acc (e.waveSp_fpts fpt) else acc) 0
  p.CFL * cfl e.order * (2 / (waveSp + 1e-10))

/-- C10: `ele::timeStepA` and `ele::timeStepB` write only the current
solution `U_spts` (and `dt`, which is refreshed from the global step
unless `dtType == 2`); the snapshot `U0`, the stage divergences
`divF_spts`, the Jacobian determinants and all other element arrays are
untouched, and with local time stepping (`dtType = 2`) `dt` itself is
also untouched. -/
theorem timeStep_frame (p : FlowParams) (step : ℕ) (rkVal : ℚ) (e : EleState) :
    (timeStepA p step rkVal e).U0 = e.U0 ∧
    (timeStepA p step rkVal e).divF_spts = e.divF_spts ∧
    (timeStepA p step rkVal e).detJac_spts = e.detJac_spts ∧
    (timeStepA p step rkVal e).U_fpts = e.U_fpts ∧
    (timeStepA p step rkVal e).Uavg = e.Uavg ∧
    (timeStepA p step rkVal e).waveSp_fpts = e.waveSp_fpts ∧
    (timeStepA p step rkVal e).dA_fpts = e.dA_fpts ∧
    (timeStepA p step rkVal e).src_spts = e.src_spts ∧
    (timeStepB p step rkVal e).U0 = e.U0 ∧
    (timeStepB p step rkVal e).divF_spts = e.divF_spts ∧
    (timeStepB p step rkVal e).detJac_spts = e.detJac_spts ∧
    (timeStepB p step rkVal e).U_fpts = e.U_fpts ∧
    (timeStepB p step rkVal e).Uavg = e.Uavg ∧
    (timeStepB p step rkVal e).waveSp_fpts = e.waveSp_fpts ∧
    (timeStepB p step rkVal e).dA_fpts = e.dA_fpts ∧
    (timeStepB p step rkVal e).src_spts = e.src_spts ∧
    (p.dtType = 2 → (timeStepA p step rkVal e).dt = e.dt ∧
      (timeStepB p step rkVal e).dt = e.dt) := by
  refine ⟨rfl, rfl, rfl, rfl, rfl, rfl, rfl, rfl,
    rfl, rfl, rfl, rfl, rfl, rfl, rfl, rfl, fun h => ⟨?_, ?_⟩⟩ <;>
    simp [timeStepA, timeStepB, h]

/-- Concrete parameter set with local CFL time stepping (`dtType = 2`),
used by witnesses. -/
def localDtParams : FlowParams where
  dtType := 2
  dt := 1
  nRKSteps := 1
  RKa := [0]
  RKb := [1]
  time := 0
  rkTime := 0
  iter := 0
  motion := 0
  nDims := 2
  gamma := 7/5
  exps0 := 0
  CFL := 1
  powGamma := id

/-- Witness for `timeStep_frame` at a concrete element with `dtType = 2`. -/
theorem timeStep_frame_witness :
    (timeStepA localDtParams 0 1 default).dt = (default : EleState).dt := by
  exact ((timeStep_frame localDtParams 0 1 default).2.2.2.2.2.2.2.2.2.2.2.2.2.2.2.2 rfl).1

/-! ### Positivity squeezing (`ele::checkDensity`, `ele::checkEntropy`) -/

/-- Fold pattern of the squeezing scans: a running minimum over the guarded
values `f y` for `y` in `l` with `P y`, started at `acc`. -/
def minScan (f : ℕ → ℚ) (P : ℕ → Prop) [DecidablePred P] (l : List ℕ) (acc : ℚ) : ℚ :=
  l.foldl (fun a y => if P y then min a (f y) else a) acc

theorem minScan_le_acc (f : ℕ → ℚ) (P : ℕ → Prop) [DecidablePred P]
    (l : List ℕ) (acc : ℚ) : minScan f P l acc ≤ acc := by
  induction l generalizing acc with
  | nil => exact le_refl _
  | cons x t ih =>
    simp only [minScan, List.foldl_cons]
    refine le_trans (ih _) ?_
    split
    · exact min_le_left _ _
    · exact le_refl _

theorem minScan_le_elem (f : ℕ → ℚ) (P : ℕ → Prop) [DecidablePred P]
    (l : List ℕ) (acc : ℚ) (x : ℕ) (hx : x ∈ l) (hP : P x) :
    minScan f P l acc ≤ f x := by
  induction l generalizing acc with
  | nil => cases hx
  | cons y t ih =>
    simp only [minScan, List.foldl_cons]
    rcases List.mem_cons.mp hx with h | h
    · subst h
      refine le_trans (minScan_le_acc f P t _) ?_
      rw [if_pos hP]
      exact min_le_right _ _
    · exact ih _ h

theorem le_minScan (f : ℕ → ℚ) (P : ℕ → Prop) [DecidablePred P]
    (l : List ℕ) (acc : ℚ) (c : ℚ) (hacc : c ≤ acc)
    (h : ∀ x ∈ l, P x → c ≤ f x) : c ≤ minScan f P l acc := by
  induction l generalizing acc with
  | nil => exact hacc
  | cons y t ih =>
    simp only [minScan, List.foldl_cons]
    refine ih _ ?_ (fun x hx hPx => h x (List.mem_cons_of_mem _ hx) hPx)
    split
    · next hPy => exact le_min hacc (h y (List.mem_cons_self _ _) hPy)
    · exact hacc

/-- Scan of `ele::checkEntropy` lines 2489-2505: `minRho` is the minimum of
the negative densities over all solution points, then all flux points,
starting from `1e15` (no early exit). -/
def minRhoAll (e : EleState) : ℚ :=
  minScan (fun fpt => e.U_fpts fpt 0) (fun fpt => e.U_fpts fpt 0 < 0) (List.range e.nFpts)
    (minScan (fun spt => e.U_spts spt 0) (fun spt => e.U_spts spt 0 < 0)
      (List.range e.nSpts) 1e15)

/-- Flag `negRho` of `ele::checkEntropy`: some solution-point or flux-point
density is negative. -/
def negRhoAll (e : EleState) : Bool :=
  ((List.range e.nSpts).any fun spt => decide (e.U_spts spt 0 < 0)) ||
  ((List.range e.nFpts).any fun fpt => decide (e.U_fpts fpt 0 < 0))

/-- Blend factor of the density squeeze: `eps = abs(Uavg[0] - tol)/(Uavg[0] - minRho)`
with `tol = 1e-10` (ele.cpp line 2509). -/
def densEps (e : EleState) : ℚ :=
  |e.Uavg 0 - 1e-10| / (e.Uavg 0 - minRhoAll e)

/-- Density half of `ele::checkEntropy` (lines 2488-2517): when some density
is negative, blend the density field (field 0 only) of every solution point
and flux point toward `Uavg[0]` by `eps`. -/
def squeezeDensity (e : EleState) : EleState :=
  if negRhoAll e then
    let eps := densEps e
    { e with
      U_spts := fun spt i =>
        if spt < e.nSpts ∧ i = 0 then (1 - eps) * e.Uavg 0 + eps * e.U_spts spt i
        else e.U_spts spt i
      U_fpts := fun fpt i =>
        if fpt < e.nFpts ∧ i = 0 then (1 - eps) * e.Uavg 0 + eps * e.U_fpts fpt i
        else e.U_fpts fpt i }
  else e

/-- Entropy bound `tau = p - exps0*rho^gamma` of a state vector, with the
primitives recovered as in `ele::getPrimitives` (Navier-Stokes branch,
`nDims ∈ {2,3}`). -/
def tauOf (p : FlowParams) (U : ℕ → ℚ) : ℚ :=
  let rho := U 0
  let vMagSq := ∑ d ∈ Finset.range p.nDims, (U (d + 1) / rho) ^ 2
  let press := (p.gamma - 1) * (U (p.nDims + 1) - 1/2 * rho * vMagSq)
  press - p.exps0 * p.powGamma rho

/-- Scan of `ele::checkEntropy` lines 2521-2538: minimum `tau` over all
solution points then all flux points, starting from `1e15`. -/
def minTauAll (p : FlowParams) (e : EleState) : ℚ :=
  minScan (fun fpt => tauOf p (e.U_fpts fpt)) (fun _ => True) (List.range e.nFpts)
    (minScan (fun spt => tauOf p (e.U_spts spt)) (fun _ => True) (List.range e.nSpts) 1e15)

/-- Entropy half of `ele::checkEntropy` (lines 2540-2563): when `minTau < 0`,
blend every field of every solution point and flux point toward `Uavg` by
`Eps = minTau/(minTau - p_avg + exps0*rho_avg^gamma)`. -/
def squeezeEntropy (p : FlowParams) (e : EleState) : EleState :=
  let minTau := minTauAll p e
  if minTau < 0 then
    let rho := e.Uavg 0
    let vMagSq := ∑ d ∈ Finset.range p.nDims, (e.Uavg (d + 1) / rho) ^ 2
    let press := (p.gamma - 1) * (e.Uavg (p.nDims + 1) - 1/2 * rho * vMagSq)
    let eps := minTau / (minTau - press + p.exps0 * p.powGamma rho)
    { e with
      U_spts := fun spt i =>
        if spt < e.nSpts ∧ i < e.nFields then eps * e.Uavg i + (1 - eps) * e.U_spts spt i
        else e.U_spts spt i
      U_fpts := fun fpt i =>
        if fpt < e.nFpts ∧ i < e.nFields then eps * e.Uavg i + (1 - eps) * e.U_fpts fpt i
        else e.U_fpts fpt i }
  else e

/-- Embedding of `ele::checkEntropy` (ele.cpp lines 2486-2564): the density
squeeze followed by the entropy squeeze. -/
def checkEntropy (p : FlowParams) (e : EleState) : EleState :=
  squeezeEntropy p (squeezeDensity e)

/-- Scan of `ele::checkDensity` (lines 2455-2469): unlike `checkEntropy`,
both loops `break` right after recording the first negative density, so
`minRho` is `min` of the first negative solution-point density and the
first negative flux-point density (not the global minimum). -/
def minRhoFirst (e : EleState) : ℚ :=
  let m1 : ℚ :=
    match (List.range e.nSpts).find? (fun spt => decide (e.U_spts spt 0 < 0)) with
    | some spt => min 1e15 (e.U_spts spt 0)
    | none => 1e15
  match (List.range e.nFpts).find? (fun fpt => decide (e.U_fpts fpt 0 < 0)) with
  | some fpt => min m1 (e.U_fpts fpt 0)
  | none => m1

/-- Embedding of `ele::checkDensity` (ele.cpp lines 2448-2484); returns the
squeezed element and the `negRho` flag. -/
def checkDensity (e : EleState) : EleState × Bool :=
  let negRho := ((List.range e.nSpts).find? (fun spt => decide (e.U_spts spt 0 < 0))).isSome ||
    ((List.range e.nFpts).find? (fun fpt => decide (e.U_fpts fpt 0 < 0))).isSome
  if negRho then
    let eps := |e.Uavg 0 - 1e-10| / (e.Uavg 0 - minRhoFirst e)
    ({ e with
      U_spts := fun spt i =>
        if spt < e.nSpts ∧ i = 0 then (1 - eps) * e.Uavg 0 + eps * e.U_spts spt i
        else e.U_spts spt i
      U_fpts := fun fpt i =>
        if fpt < e.nFpts ∧ i = 0 then (1 - eps) * e.Uavg 0 + eps * e.U_fpts fpt i
        else e.U_fpts fpt i }, true)
  else (e, false)

theorem minRhoAll_neg_of_negRho (e : EleState) (hNeg : negRhoAll e = true) :
    minRhoAll e < 0 := by
  rw [negRhoAll, Bool.or_eq_true] at hNeg
  rcases hNeg with h | h
  · rcases List.any_eq_true.mp h with ⟨spt, hmem, hlt⟩
    have hlt := of_decide_eq_true hlt
    refine lt_of_le_of_lt ?_ hlt
    exact le_trans (minScan_le_acc _ _ _ _)
      (minScan_le_elem _ _ _ _ spt hmem hlt)
  · rcases List.any_eq_true.mp h with ⟨fpt, hmem, hlt⟩
    have hlt := of_decide_eq_true hlt
    exact lt_of_le_of_lt (minScan_le_elem _ _ _ _ fpt hmem hlt) hlt

theorem minRhoAll_le_spt (e : EleState) (spt : ℕ) (hs : spt < e.nSpts)
    (hlt : e.U_spts spt 0 < 0) : minRhoAll e ≤ e.U_spts spt 0 :=
  le_trans (minScan_le_acc _ _ _ _)
    (minScan_le_elem _ _ _ _ spt (List.mem_range.mpr hs) hlt)

theorem minRhoAll_le_fpt (e : EleState) (fpt : ℕ) (hf : fpt < e.nFpts)
    (hlt : e.U_fpts fpt 0 < 0) : minRhoAll e ≤ e.U_fpts fpt 0 :=
  minScan_le_elem _ _ _ _ fpt (List.mem_range.mpr hf) hlt

/-- C3 (amended): with `Uavg[0] ≥ tol`, the density squeeze of
`ele::checkEntropy` blends exactly as `eps = (Uavg[0]-tol)/(Uavg[0]-minRho)`
with `minRho` the minimum density over all solution and flux points; only
the density field (field 0) is blended, and every point whose density
equals `minRho` is left at exactly `tol = 1e-10`. -/
theorem checkEntropy_densityPhase (e : EleState)
    (hNeg : negRhoAll e = true) (hAvg : (1e-10 : ℚ) ≤ e.Uavg 0) :
    densEps e = (e.Uavg 0 - 1e-10) / (e.Uavg 0 - minRhoAll e) ∧
    (∀ spt, spt < e.nSpts →
      (squeezeDensity e).U_spts spt 0
        = (1 - densEps e) * e.Uavg 0 + densEps e * e.U_spts spt 0) ∧
    (∀ fpt, fpt < e.nFpts →
      (squeezeDensity e).U_fpts fpt 0
        = (1 - densEps e) * e.Uavg 0 + densEps e * e.U_fpts fpt 0) ∧
    (∀ spt i, i ≠ 0 → (squeezeDensity e).U_spts spt i = e.U_spts spt i) ∧
    (∀ fpt i, i ≠ 0 → (squeezeDensity e).U_fpts fpt i = e.U_fpts fpt i) ∧
    (∀ spt, spt < e.nSpts → e.U_spts spt 0 = minRhoAll e →
      (squeezeDensity e).U_spts spt 0 = 1e-10) ∧
    (∀ fpt, fpt < e.nFpts → e.U_fpts fpt 0 = minRhoAll e →
      (squeezeDensity e).U_fpts fpt 0 = 1e-10) := by
  have hm : minRhoAll e < 0 := minRhoAll_neg_of_negRho e hNeg
  have habs : densEps e = (e.Uavg 0 - 1e-10) / (e.Uavg 0 - minRhoAll e) := by
    rw [densEps, abs_of_nonneg (by linarith)]
  have hden : e.Uavg 0 - minRhoAll e ≠ 0 := ne_of_gt (by linarith)
  have key : ∀ A m t : ℚ, A - m ≠ 0 →
      (1 - (A - t) / (A - m)) * A + (A - t) / (A - m) * m = t := by
    intro A m t h
    field_simp
    ring
  refine ⟨habs, ?_, ?_, ?_, ?_, ?_, ?_⟩
  · intro spt hs
    simp [squeezeDensity, hNeg, hs]
  · intro fpt hf
    simp [squeezeDensity, hNeg, hf]
  · intro spt i hi
    simp [squeezeDensity, hNeg, hi]
  · intro fpt i hi
    simp [squeezeDensity, hNeg, hi]
  · intro spt hs hval
    simp only [squeezeDensity, hNeg, if_true]
    rw [if_pos ⟨hs, trivial⟩, hval, habs]
    exact key _ _ _ hden
  · intro fpt hf hval
    simp only [squeezeDensity, hNeg, if_true]
    rw [if_pos ⟨hf, trivial⟩, hval, habs]
    exact key _ _ _ hden

/-- Concrete element realizing spec scenario D: a single solution point
with density `-0.01` on a cell whose mean density is `1`. -/
def scenarioD : EleState :=
  { (default : EleState) with
    nSpts := 1
    nFpts := 1
    nFields := 4
    U_spts := fun _ i => if i = 0 then -1/100 else if i = 3 then 1 else 0
    U_fpts := fun _ i => if i = 0 then 1 else if i = 3 then 1 else 0
    Uavg := fun i => if i = 0 then 1 else if i = 3 then 1 else 0 }

theorem scenarioD_minRho : minRhoAll scenarioD = -1/100 := by
  norm_num [minRhoAll, minScan, scenarioD, List.range_succ]

theorem scenarioD_negRho : negRhoAll scenarioD = true := by
  norm_num [negRhoAll, scenarioD, List.range_succ]

/-- Witness for `checkEntropy_densityPhase`: scenario D leaves the squeezed
point at density exactly `1e-10`. -/
theorem checkEntropy_densityPhase_witness :
    (squeezeDensity scenarioD).U_spts 0 0 = 1e-10 :=
  (checkEntropy_densityPhase scenarioD scenarioD_negRho (by norm_num [scenarioD])).2.2.2.2.2.1
    0 (by norm_num [scenarioD]) (by rw [scenarioD_minRho]; norm_num [scenarioD])

/-- Element with two negative solution-point densities, the more negative
one later in the scan: `ele::checkDensity` breaks at the first. -/
def twoNegEle : EleState :=
  { (default : EleState) with
    nSpts := 2
    nFpts := 1
    nFields := 4
    U_spts := fun spt i =>
      if i = 0 then (if spt = 0 then -1/100 else -1/2) else if i = 3 then 1 else 0
    U_fpts := fun _ i => if i = 0 then 1 else if i = 3 then 1 else 0
    Uavg := fun i => if i = 0 then 1 else if i = 3 then 1 else 0 }

/-- Counterexample to C3 as stated: on `twoNegEle` the squeeze of
`ele::checkDensity` fires (`negRho = true`, mean density `1 > 0`), but the
scan breaks at the first negative density `-0.01`, so `rho_min` is not the
global minimum `-0.5` and the worst point is left strictly negative
instead of at `tol = 1e-10`. -/
theorem checkDensity_firstNeg_cex :
    (checkDensity twoNegEle).2 = true ∧
    minRhoFirst twoNegEle = -1/100 ∧
    minRhoAll twoNegEle = -1/2 ∧
    (checkDensity twoNegEle).1.U_spts 1 0 < 0 ∧
    (checkDensity twoNegEle).1.U_spts 1 0 ≠ 1e-10 := by
  have h2 : minRhoFirst twoNegEle = -1/100 := by
    norm_num [minRhoFirst, twoNegEle, List.range_succ, List.find?]
  have h3 : minRhoAll twoNegEle = -1/2 := by
    norm_num [minRhoAll, minScan, twoNegEle, List.range_succ]
  have h1 : (checkDensity twoNegEle).2 = true := by
    norm_num [checkDensity, twoNegEle, List.range_succ, List.find?]
  have h4 : (checkDensity twoNegEle).1.U_spts 1 0 = -9799999997/20200000000 := by
    norm_num [checkDensity, minRhoFirst, twoNegEle, List.range_succ, List.find?,
      abs_of_nonneg]
  refine ⟨h1, h2, h3, by rw [h4]; norm_num, by rw [h4]; norm_num⟩

theorem squeezeDensity_counts (e : EleState) :
    (squeezeDensity e).nSpts = e.nSpts ∧ (squeezeDensity e).nFpts = e.nFpts ∧
    (squeezeDensity e).Uavg = e.Uavg := by
  unfold squeezeDensity
  split <;> exact ⟨rfl, rfl, rfl⟩

theorem squeezeEntropy_counts (p : FlowParams) (e : EleState) :
    (squeezeEntropy p e).nSpts = e.nSpts ∧ (squeezeEntropy p e).nFpts = e.nFpts ∧
    (squeezeEntropy p e).Uavg = e.Uavg := by
  unfold squeezeEntropy
  dsimp only
  split <;> exact ⟨rfl, rfl, rfl⟩

theorem squeezeDensity_of_noNeg (e : EleState) (h : negRhoAll e = false) :
    squeezeDensity e = e := by
  simp [squeezeDensity, h]

theorem squeezeEntropy_of_noTau (p : FlowParams) (e : EleState)
    (h : 0 ≤ minTauAll p e) : squeezeEntropy p e = e := by
  simp [squeezeEntropy, not_lt.mpr h]

theorem squeezeDensity_rho_lb (e : EleState) (hAvg : (1e-10 : ℚ) ≤ e.Uavg 0)
    (hNeg : negRhoAll e = true) :
    (∀ spt, spt < e.nSpts → (1e-10 : ℚ) ≤ (squeezeDensity e).U_spts spt 0) ∧
    (∀ fpt, fpt < e.nFpts → (1e-10 : ℚ) ≤ (squeezeDensity e).U_fpts fpt 0) := by
  have hm : minRhoAll e < 0 := minRhoAll_neg_of_negRho e hNeg
  have hup : densEps e = (e.Uavg 0 - 1e-10) / (e.Uavg 0 - minRhoAll e) := by
    rw [densEps, abs_of_nonneg (by linarith)]
  have heps0 : 0 ≤ densEps e := by
    rw [hup]
    exact div_nonneg (by linarith) (by linarith)
  have tkey : (1 - densEps e) * e.Uavg 0 + densEps e * minRhoAll e = 1e-10 := by
    rw [hup]
    have hden : e.Uavg 0 - minRhoAll e ≠ 0 := ne_of_gt (by linarith)
    field_simp
    ring
  have bound : ∀ x : ℚ, minRhoAll e ≤ x →
      (1e-10 : ℚ) ≤ (1 - densEps e) * e.Uavg 0 + densEps e * x := by
    intro x hx
    have h5 : 0 ≤ densEps e * x - densEps e * minRhoAll e := by
      have := mul_nonneg heps0 (sub_nonneg.mpr hx)
      rwa [mul_sub] at this
    linarith [tkey, h5]
  constructor
  · intro spt hs
    have hx : minRhoAll e ≤ e.U_spts spt 0 := by
      by_cases hlt : e.U_spts spt 0 < 0
      · exact minRhoAll_le_spt e spt hs hlt
      · exact le_trans (le_of_lt hm) (not_lt.mp hlt)
    simpa [squeezeDensity, hNeg, hs] using bound _ hx
  · intro fpt hf
    have hx : minRhoAll e ≤ e.U_fpts fpt 0 := by
      by_cases hlt : e.U_fpts fpt 0 < 0
      · exact minRhoAll_le_fpt e fpt hf hlt
      · exact le_trans (le_of_lt hm) (not_lt.mp hlt)
    simpa [squeezeDensity, hNeg, hf] using bound _ hx

theorem negRho_after_squeeze (e : EleState) (hAvg : (1e-10 : ℚ) ≤ e.Uavg 0) :
    negRhoAll (squeezeDensity e) = false := by
  cases hNeg : negRhoAll e with
  | false => rw [squeezeDensity_of_noNeg e hNeg]; exact hNeg
  | true =>
    have hb := squeezeDensity_rho_lb e hAvg hNeg
    have hcount := squeezeDensity_counts e
    rw [negRhoAll, Bool.or_eq_false_iff]
    constructor
    · refine List.any_eq_false.mpr ?_
      intro spt hmem
      rw [hcount.1] at hmem
      have hlb := hb.1 spt (List.mem_range.mp hmem)
      simp only [decide_eq_true_eq, not_lt]
      linarith
    · refine List.any_eq_false.mpr ?_
      intro fpt hmem
      rw [hcount.2.1] at hmem
      have hlb := hb.2 fpt (List.mem_range.mp hmem)
      simp only [decide_eq_true_eq, not_lt]
      linarith

/-- C7 (amended): `ele::checkEntropy` is idempotent on every element whose
mean density is at least the squeeze tolerance `1e-10` and whose
density-squeezed state has no entropy deficit (`minTau ≥ 0`, so the
entropy blend does not fire).  When the entropy blend does fire, a second
pass can change values (`checkEntropy_not_idempotent_cex`). -/
theorem checkEntropy_idempotent (p : FlowParams) (e : EleState)
    (hAvg : (1e-10 : ℚ) ≤ e.Uavg 0)
    (hTau : 0 ≤ minTauAll p (squeezeDensity e)) :
    checkEntropy p (checkEntropy p e) = checkEntropy p e := by
  have h1 : checkEntropy p e = squeezeDensity e := by
    unfold checkEntropy
    exact squeezeEntropy_of_noTau p _ hTau
  rw [h1]
  unfold checkEntropy
  rw [squeezeDensity_of_noNeg _ (negRho_after_squeeze e hAvg),
    squeezeEntropy_of_noTau p _ hTau]

/-- Uniform positive state (density 1, zero momentum, energy 1). -/
def uniformEle : EleState :=
  { (default : EleState) with
    nSpts := 1
    nFpts := 1
    nFields := 4
    U_spts := fun _ i => [1, 0, 0, 1].getD i 0
    U_fpts := fun _ i => [1, 0, 0, 1].getD i 0
    Uavg := fun i => [1, 0, 0, 1].getD i 0 }

theorem uniformEle_noNeg : negRhoAll uniformEle = false := by
  norm_num [negRhoAll, uniformEle, List.range_succ]

theorem uniformEle_minTau : minTauAll localDtParams uniformEle = 2/5 := by
  simp only [minTauAll, minScan, uniformEle, localDtParams,
    show List.range 1 = [0] from rfl, List.foldl]
  norm_num [tauOf, Finset.sum_range_succ, min_def]

/-- Witness for `checkEntropy_idempotent` on the uniform positive state. -/
theorem checkEntropy_idempotent_witness :
    checkEntropy localDtParams (checkEntropy localDtParams uniformEle)
      = checkEntropy localDtParams uniformEle :=
  checkEntropy_idempotent localDtParams uniformEle (by norm_num [uniformEle])
    (by rw [squeezeDensity_of_noNeg _ uniformEle_noNeg, uniformEle_minTau]; norm_num)

/-- Parameter set with `gamma = 2` (so `pow(rho,gamma) = rho^2`) and
`exps0 = 1`, exercising the entropy blend. -/
def entropyParams : FlowParams where
  dtType := 0
  dt := 1
  nRKSteps := 1
  RKa := [0]
  RKb := [1]
  time := 0
  rkTime := 0
  iter := 0
  motion := 0
  nDims := 2
  gamma := 2
  exps0 := 1
  CFL := 1
  powGamma := fun x => x ^ 2

/-- State with positive densities but an entropy deficit (`tau < 0` at the
single solution point) against a mean with `tau(Uavg) < 0` as well. -/
def tauDeficitEle : EleState :=
  { (default : EleState) with
    nSpts := 1
    nFpts := 1
    nFields := 4
    U_spts := fun _ i => [3/2, 0, 0, 1].getD i 0
    U_fpts := fun _ i => [3/2, 0, 0, 1].getD i 0
    Uavg := fun i => [2, 0, 0, 1].getD i 0 }

theorem tauDeficitEle_noNeg : negRhoAll tauDeficitEle = false := by
  norm_num [negRhoAll, tauDeficitEle, List.range_succ]

theorem tauDeficitEle_minTau : minTauAll entropyParams tauDeficitEle = -5/4 := by
  simp only [minTauAll, minScan, tauDeficitEle, entropyParams,
    show List.range 1 = [0] from rfl, List.foldl]
  norm_num [tauOf, Finset.sum_range_succ, min_def]

theorem squeezeEntropy_nFields (p : FlowParams) (e : EleState) :
    (squeezeEntropy p e).nFields = e.nFields := by
  unfold squeezeEntropy
  dsimp only
  split <;> rfl

/-- Result of the first `checkEntropy` pass on `tauDeficitEle`. -/
def tauDeficitEle1 : EleState := squeezeEntropy entropyParams tauDeficitEle

theorem tauDeficitEle1_nFields : tauDeficitEle1.nFields = 4 := by
  rw [tauDeficitEle1, squeezeEntropy_nFields]
  rfl

theorem tauDeficitEle1_proj :
    tauDeficitEle1.nSpts = 1 ∧ tauDeficitEle1.nFpts = 1 ∧
    tauDeficitEle1.Uavg = tauDeficitEle.Uavg ∧
    tauDeficitEle1.U_spts 0 0 = 8/7 ∧ tauDeficitEle1.U_spts 0 1 = 0 ∧
    tauDeficitEle1.U_spts 0 2 = 0 ∧ tauDeficitEle1.U_spts 0 3 = 1 ∧
    tauDeficitEle1.U_fpts 0 0 = 8/7 ∧ tauDeficitEle1.U_fpts 0 1 = 0 ∧
    tauDeficitEle1.U_fpts 0 2 = 0 ∧ tauDeficitEle1.U_fpts 0 3 = 1 := by
  refine ⟨(squeezeEntropy_counts _ _).1, (squeezeEntropy_counts _ _).2.1,
    (squeezeEntropy_counts _ _).2.2, ?_, ?_, ?_, ?_, ?_, ?_, ?_, ?_⟩ <;>
  · simp only [tauDeficitEle1, squeezeEntropy, tauDeficitEle_minTau]
    rw [if_pos (show (-5/4 : ℚ) < 0 by norm_num)]
    norm_num [tauDeficitEle, entropyParams, Finset.sum_range_succ]

theorem tauDeficitEle1_noNeg : negRhoAll tauDeficitEle1 = false := by
  rw [negRhoAll, tauDeficitEle1_proj.1, tauDeficitEle1_proj.2.1]
  norm_num [List.range_succ, tauDeficitEle1_proj.2.2.2.1,
    tauDeficitEle1_proj.2.2.2.2.2.2.2.1]

theorem tauDeficitEle1_minTau : minTauAll entropyParams tauDeficitEle1 = -15/49 := by
  rw [minTauAll, tauDeficitEle1_proj.1, tauDeficitEle1_proj.2.1]
  simp only [minScan, show List.range 1 = [0] from rfl, List.foldl]
  norm_num [tauOf, Finset.sum_range_succ, min_def, entropyParams,
    tauDeficitEle1_proj.2.2.2.1, tauDeficitEle1_proj.2.2.2.2.1,
    tauDeficitEle1_proj.2.2.2.2.2.1, tauDeficitEle1_proj.2.2.2.2.2.2.1,
    tauDeficitEle1_proj.2.2.2.2.2.2.2.1, tauDeficitEle1_proj.2.2.2.2.2.2.2.2.1,
    tauDeficitEle1_proj.2.2.2.2.2.2.2.2.2.1, tauDeficitEle1_proj.2.2.2.2.2.2.2.2.2.2]

/-- Counterexample to C7 as stated: on `tauDeficitEle` (all densities
positive, entropy deficit at the points and at the mean) a second
application of `ele::checkEntropy` changes the state again: the density at
the solution point moves from `8/7` after one pass to `23/22` after two. -/
theorem checkEntropy_not_idempotent_cex :
    (checkEntropy entropyParams (checkEntropy entropyParams tauDeficitEle)).U_spts 0 0
      ≠ (checkEntropy entropyParams tauDeficitEle).U_spts 0 0 := by
  have h1 : checkEntropy entropyParams tauDeficitEle = tauDeficitEle1 := by
    rw [checkEntropy, squeezeDensity_of_noNeg _ tauDeficitEle_noNeg, tauDeficitEle1]
  have h2 : (checkEntropy entropyParams tauDeficitEle1).U_spts 0 0 = 23/22 := by
    rw [checkEntropy, squeezeDensity_of_noNeg _ tauDeficitEle1_noNeg]
    simp only [squeezeEntropy, tauDeficitEle1_minTau]
    rw [if_pos (show (-15/49 : ℚ) < 0 by norm_num)]
    norm_num [tauDeficitEle1_proj.1, tauDeficitEle1_proj.2.2.1,
      tauDeficitEle1_proj.2.2.2.1, tauDeficitEle1_nFields, entropyParams,
      Finset.sum_range_succ, tauDeficitEle]
  rw [h1, h2, tauDeficitEle1_proj.2.2.2.1]
  norm_num

/-! ### Reference-location Newton search (`ele::getRefLocNewton`) -/

/-- Spatial point in R3 (class `point`; z = 0 in 2-D). -/
structure Pt where
  x : ℚ
  y : ℚ
  z : ℚ

/-- Bounding box as returned by `ele::getBoundingBox`. -/
structure BBox where
  xmin : ℚ
  ymin : ℚ
  zmin : ℚ
  xmax : ℚ
  ymax : ℚ
  zmax : ℚ

/-- Modelled from the spec: 4-node bilinear quadrilateral shape functions
`N_i(r,s)` on `[-1,1]^2` (`shape_quad` is declared in funcs.hpp, outside
src/; the spec gives `x(r) = Σ N_i(r) x_i` with tensor-product Lagrange
shapes, node order `(-1,-1),(1,-1),(1,1),(-1,1)`). -/
def shape_quad (r s : ℚ) : List ℚ :=
  [(1 - r) * (1 - s) / 4, (1 + r) * (1 - s) / 4,
   (1 + r) * (1 + s) / 4, (1 - r) * (1 + s) / 4]

/-- Modelled from the spec: reference-space derivatives `(dN_i/dr, dN_i/ds)`
of the 4-node quadrilateral shape functions (`dshape_quad`, outside src/). -/
def dshape_quad (r s : ℚ) : List (ℚ × ℚ) :=
  [(-(1 - s) / 4, -(1 - r) / 4), ((1 - s) / 4, -(1 + r) / 4),
   ((1 + s) / 4, (1 + r) / 4), (-(1 + s) / 4, (1 - r) / 4)]

/-- Embedding of `ele::getBoundingBox` (ele.cpp): componentwise min/max over
the element nodes (the `INFINITY` seeds of the C++ fold are modelled by
folding from the first node; the node list of a real element is nonempty). -/
def getBoundingBox (nodes : List Pt) : BBox :=
  match nodes with
  | [] => ⟨0, 0, 0, 0, 0, 0⟩
  | n :: t =>
    t.foldl (fun bb p =>
      ⟨min bb.xmin p.x, min bb.ymin p.y, min bb.zmin p.z,
       max bb.xmax p.x, max bb.ymax p.y, max bb.zmax p.z⟩)
      ⟨n.x, n.y, n.z, n.x, n.y, n.z⟩

/-- Bounding-box reject of `ele::getRefLocNewton` (ele.cpp lines 1153-1158)
with slack `eps = 1e-10`. -/
def bboxReject (nodes : List Pt) (pos : Pt) : Bool :=
  let bb := getBoundingBox nodes
  decide (pos.x < bb.xmin - 1e-10) || decide (pos.y < bb.ymin - 1e-10) ||
  decide (pos.z < bb.zmin - 1e-10) || decide (pos.x > bb.xmax + 1e-10) ||
  decide (pos.y > bb.ymax + 1e-10) || decide (pos.z > bb.zmax + 1e-10)

/-- One Newton body of `ele::getRefLocNewton` (2-D case): assemble
`grad = Σ_n x_n ⊗ dN_n`, the residual `dx = pos - Σ_n N_n x_n`, apply the
adjoint over the determinant, update and clamp `loc` to `[-1,1]`; returns
the squared residual norm (the code never takes the square root) and the
new location. -/
def newtonStep (nodes : List Pt) (pos : Pt) (loc : Pt) : ℚ × Pt :=
  let sh := shape_quad loc.x loc.y
  let ds := dshape_quad loc.x loc.y
  let g00 := ((nodes.zip ds).map (fun q => q.1.x * q.2.1)).sum
  let g01 := ((nodes.zip ds).map (fun q => q.1.x * q.2.2)).sum
  let g10 := ((nodes.zip ds).map (fun q => q.1.y * q.2.1)).sum
  let g11 := ((nodes.zip ds).map (fun q => q.1.y * q.2.2)).sum
  let dx0 := pos.x - ((nodes.zip sh).map (fun q => q.2 * q.1.x)).sum
  let dx1 := pos.y - ((nodes.zip sh).map (fun q => q.2 * q.1.y)).sum
  let detJ := g00 * g11 - g10 * g01
  let d0 := (g11 * dx0 + -g01 * dx1) / detJ
  let d1 := (-g10 * dx0 + g00 * dx1) / detJ
  (dx0 ^ 2 + dx1 ^ 2,
   ⟨max (min (loc.x + d0) 1) (-1), max (min (loc.y + d1) 1) (-1), loc.z⟩)

/-- The `while (norm > tol && iter < iterMax)` loop of `ele::getRefLocNewton`
with `iterMax = 20`: `r` counts the remaining allowed iterations; after the
20th body the code returns `false` with the current (clamped) location. -/
def newtonLoop (nodes : List Pt) (pos : Pt) (tol : ℚ) : ℕ → ℚ → Pt → Bool × Pt
  | 0, _, loc => (true, loc)
  | Nat.succ r, norm, loc =>
    if norm ≤ tol then (true, loc)
    else
      let st := newtonStep nodes pos loc
      if r = 0 then (false, st.2) else newtonLoop nodes pos tol r st.1 st.2

/-- Embedding of `ele::getRefLocNewton` (ele.cpp lines 1140-1223, 2-D,
static mesh): bounding-box reject with the sentinel `{99,99,99}`, then at
most 20 Newton iterations from `loc = {0,0,0}` with tolerance
`1e-12 * h` where `h` is the smallest bounding-box extent. -/
def getRefLocNewton (nodes : List Pt) (pos : Pt) : Bool × Pt :=
  if bboxReject nodes pos then (false, ⟨99, 99, 99⟩)
  else
    let bb := getBoundingBox nodes
    let h := min (bb.xmax - bb.xmin) (bb.ymax - bb.ymin)
    let tol := 1e-12 * h
    newtonLoop nodes pos tol 20 1 ⟨0, 0, 0⟩

theorem newtonLoop_box (nodes : List Pt) (pos : Pt) (tol : ℚ) :
    ∀ (r : ℕ) (norm : ℚ) (loc : Pt), -1 ≤ loc.x → loc.x ≤ 1 → -1 ≤ loc.y → loc.y ≤ 1 →
      (-1 ≤ (newtonLoop nodes pos tol r norm loc).2.x ∧
       (newtonLoop nodes pos tol r norm loc).2.x ≤ 1 ∧
       -1 ≤ (newtonLoop nodes pos tol r norm loc).2.y ∧
       (newtonLoop nodes pos tol r norm loc).2.y ≤ 1 ∧
       (newtonLoop nodes pos tol r norm loc).2.z = loc.z) := by
  intro r
  induction r with
  | zero => intro norm loc h1 h2 h3 h4; exact ⟨h1, h2, h3, h4, rfl⟩
  | succ r ih =>
    intro norm loc h1 h2 h3 h4
    simp only [newtonLoop]
    split
    · exact ⟨h1, h2, h3, h4, rfl⟩
    · have hcl : ∀ v : ℚ, -1 ≤ max (min v 1) (-1) ∧ max (min v 1) (-1) ≤ 1 :=
        fun v => ⟨le_max_right _ _,
          max_le (le_trans (min_le_right _ _) (le_refl 1)) (by norm_num)⟩
      by_cases hr : r = 0
      · subst hr
        simp only [if_pos rfl]
        exact ⟨(hcl _).1, (hcl _).2, (hcl _).1, (hcl _).2, rfl⟩
      · rw [if_neg hr]
        have := ih (newtonStep nodes pos loc).1 (newtonStep nodes pos loc).2
          (hcl _).1 (hcl _).2 (hcl _).1 (hcl _).2
        exact ⟨this.1, this.2.1, this.2.2.1, this.2.2.2.1, this.2.2.2.2⟩

/-- C4 (amended): `getRefLocNewton` runs at most 20 Newton iterations and
clamps both in-plane components of the reference location to `[-1,1]` at
every iteration; the bounding-box reject returns `false` with the sentinel
`{99,99,99}`, but a convergence failure returns `false` with the last
clamped iterate (inside `[-1,1]^2`, never the sentinel). -/
theorem getRefLocNewton_spec (nodes : List Pt) (pos : Pt) :
    (bboxReject nodes pos = true →
      getRefLocNewton nodes pos = (false, ⟨99, 99, 99⟩)) ∧
    (bboxReject nodes pos = false →
      -1 ≤ (getRefLocNewton nodes pos).2.x ∧ (getRefLocNewton nodes pos).2.x ≤ 1 ∧
      -1 ≤ (getRefLocNewton nodes pos).2.y ∧ (getRefLocNewton nodes pos).2.y ≤ 1 ∧
      (getRefLocNewton nodes pos).2.z = 0) := by
  constructor
  · intro h
    simp [getRefLocNewton, h]
  · intro h
    simp only [getRefLocNewton, h, Bool.false_eq_true, if_false]
    exact newtonLoop_box nodes pos _ 20 1 ⟨0, 0, 0⟩
      (by norm_num) (by norm_num) (by norm_num) (by norm_num)

/-- Diamond-shaped quadrilateral (vertices on the axes). -/
def diamondNodes : List Pt := [⟨1, 0, 0⟩, ⟨0, 1, 0⟩, ⟨-1, 0, 0⟩, ⟨0, -1, 0⟩]

/-- Witness for `getRefLocNewton_spec`: a far-away query point is rejected
by the bounding box and receives the sentinel. -/
theorem getRefLocNewton_spec_witness :
    getRefLocNewton diamondNodes ⟨99, 0, 0⟩ = (false, ⟨99, 99, 99⟩) :=
  (getRefLocNewton_spec diamondNodes ⟨99, 0, 0⟩).1
    (by norm_num [bboxReject, getBoundingBox, diamondNodes, min_def, max_def])

theorem newtonLoop_stuck (nodes : List Pt) (pos : Pt) (tol : ℚ) (loc : Pt)
    (hstep : (newtonStep nodes pos loc).2 = loc)
    (hn : ¬ (newtonStep nodes pos loc).1 ≤ tol) :
    ∀ r : ℕ, 1 ≤ r → ∀ norm : ℚ, ¬ norm ≤ tol →
      newtonLoop nodes pos tol r norm loc = (false, loc) := by
  intro r
  induction r with
  | zero => omega
  | succ r ih =>
    intro _ norm hnorm
    simp only [newtonLoop, if_neg hnorm]
    by_cases hr : r = 0
    · subst hr
      simp [hstep]
    · rw [if_neg hr, hstep]
      exact ih (Nat.one_le_iff_ne_zero.mpr hr) _ hn

theorem diamond_reject_false : bboxReject diamondNodes ⟨9/10, 9/10, 0⟩ = false := by
  norm_num [bboxReject, getBoundingBox, diamondNodes, min_def, max_def]

theorem diamond_step0 :
    newtonStep diamondNodes ⟨9/10, 9/10, 0⟩ ⟨0, 0, 0⟩ = (81/50, ⟨0, -1, 0⟩) := by
  norm_num [newtonStep, shape_quad, dshape_quad, diamondNodes, min_def, max_def]

theorem diamond_step1 :
    newtonStep diamondNodes ⟨9/10, 9/10, 0⟩ ⟨0, -1, 0⟩ = (8/25, ⟨0, -1, 0⟩) := by
  norm_num [newtonStep, shape_quad, dshape_quad, diamondNodes, min_def, max_def]

/-- Counterexample to C4 as stated: the query `(0.9, 0.9)` lies inside the
bounding box of `diamondNodes` but outside the element, the Newton iterate
is clamped to `(0,-1)` and never converges, and after the 20-iteration
limit the code returns `false` with `loc = (0,-1,0)` -- not the sentinel
`{99,99,99}` the claim promises for every failure. -/
theorem getRefLocNewton_no_sentinel_cex :
    getRefLocNewton diamondNodes ⟨9/10, 9/10, 0⟩ = (false, ⟨0, -1, 0⟩) ∧
    (⟨0, -1, 0⟩ : Pt) ≠ ⟨99, 99, 99⟩ := by
  constructor
  · rw [getRefLocNewton, diamond_reject_false]
    simp only [Bool.false_eq_true, if_false]
    have htol : (1e-12 : ℚ) *
        min ((getBoundingBox diamondNodes).xmax - (getBoundingBox diamondNodes).xmin)
          ((getBoundingBox diamondNodes).ymax - (getBoundingBox diamondNodes).ymin)
        = 1/500000000000 := by
      norm_num [getBoundingBox, diamondNodes, min_def, max_def]
    rw [htol, show (20 : ℕ) = 19 + 1 from rfl]
    simp only [newtonLoop]
    rw [if_neg (by norm_num : ¬ (1 : ℚ) ≤ 1/500000000000),
      if_neg (by norm_num : ¬ (19 : ℕ) = 0), diamond_step0]
    exact newtonLoop_stuck diamondNodes ⟨9/10, 9/10, 0⟩ _ ⟨0, -1, 0⟩
      (by rw [diamond_step1]) (by rw [diamond_step1]; norm_num)
      19 (by norm_num) _ (by norm_num)
  · intro h
    have := congrArg Pt.x h
    norm_num at this

/-! ### Supermesh tetrahedron clipping (`superMesh::clipTet`) -/

def ptSub (a b : Pt) : Pt := ⟨a.x - b.x, a.y - b.y, a.z - b.z⟩

def ptAdd (a b : Pt) : Pt := ⟨a.x + b.x, a.y + b.y, a.z + b.z⟩

def ptSmul (c : ℚ) (a : Pt) : Pt := ⟨c * a.x, c * a.y, c * a.z⟩

def ptDot (a b : Pt) : ℚ := a.x * b.x + a.y * b.y + a.z * b.z

/-- Tetrahedron (struct `tetra`, four corner nodes). -/
structure Tetra where
  n0 : Pt
  n1 : Pt
  n2 : Pt
  n3 : Pt

/-- Node access `tet.nodes[i]`. -/
def tnode (t : Tetra) (i : ℕ) : Pt :=
  if i = 0 then t.n0 else if i = 1 then t.n1 else if i = 2 then t.n2 else t.n3

/-- Centroid of the clipping face (superMesh.cpp lines 94-98). -/
def faceCentroid (clipFace : List Pt) : Pt :=
  ptSmul (1 / (clipFace.length : ℚ)) (clipFace.foldl ptAdd ⟨0, 0, 0⟩)

/-- The set `deadPts` of superMesh.cpp lines 100-107: the tet vertices on
the cut side of the plane (`(x - xc)·norm > 0`), in ascending index order
(as iterated by `std::set<int>`). -/
def deadPts (t : Tetra) (clipFace : List Pt) (norm : Pt) : List ℕ :=
  [0, 1, 2, 3].filter
    (fun i => 0 < ptDot (ptSub (tnode t i) (faceCentroid clipFace)) norm)

/-- Edge-plane intersection `ab*((norm*ac)/(norm*ab)) + a` used by all
clipping cases. -/
def edgeInt (norm xc a b : Pt) : Pt :=
  ptAdd (ptSmul (ptDot norm (ptSub xc a) / ptDot norm (ptSub b a)) (ptSub b a)) a

/-- Orientation table `flipTet` of cases 1 and 3. -/
def flipTet1 (k : ℕ) : ℕ × ℕ × ℕ :=
  if k = 0 then (1, 3, 2) else if k = 1 then (0, 2, 3)
  else if k = 2 then (0, 3, 1) else (0, 1, 2)

/-- Orientation table `flipTet` of case 2, keyed by the (ascending) pair of
kept vertices. -/
def flipTet2 (a b : ℕ) : ℕ × ℕ × ℕ × ℕ :=
  if a = 0 ∧ b = 1 then (0, 1, 2, 3) else if a = 0 ∧ b = 2 then (1, 2, 0, 3)
  else if a = 0 ∧ b = 3 then (1, 3, 2, 0) else if a = 1 ∧ b = 2 then (2, 0, 1, 3)
  else if a = 1 ∧ b = 3 then (3, 0, 2, 1) else (3, 2, 1, 0)

/-- Embedding of `superMesh::clipTet` (superMesh.cpp lines 88-251): clip one
tetrahedron against a planar face, producing 1/3/3/1/0 output tetrahedra
for 0/1/2/3/4 vertices on the cut side. -/
def clipTet (t : Tetra) (clipFace : List Pt) (norm : Pt) : List Tetra :=
  let xc := faceCentroid clipFace
  match deadPts t clipFace norm with
  | [] => [t]
  | [k] =>
    let e := flipTet1 k
    let p0 := edgeInt norm xc (tnode t k) (tnode t e.1)
    let p1 := edgeInt norm xc (tnode t k) (tnode t e.2.1)
    let p2 := edgeInt norm xc (tnode t k) (tnode t e.2.2)
    [⟨tnode t e.1, tnode t e.2.1, p0, tnode t e.2.2⟩,
     ⟨tnode t e.2.2, p0, p2, p1⟩,
     ⟨tnode t e.2.1, tnode t e.2.2, p1, p0⟩]
  | [_, _] =>
    let kp := [0, 1, 2, 3].filter
      (fun i => ¬ 0 < ptDot (ptSub (tnode t i) xc) norm)
    let ind := flipTet2 (kp.getD 0 0) (kp.getD 1 0)
    let i0 := ind.1
    let i1 := ind.2.1
    let i2 := ind.2.2.1
    let i3 := ind.2.2.2
    let np0 := edgeInt norm xc (tnode t i0) (tnode t i3)
    let np1 := edgeInt norm xc (tnode t i1) (tnode t i3)
    let np2 := edgeInt norm xc (tnode t i1) (tnode t i2)
    let np3 := edgeInt norm xc (tnode t i0) (tnode t i2)
    [⟨tnode t i1, np0, np3, tnode t i0⟩,
     ⟨np0, np3, np1, tnode t i1⟩,
     ⟨np1, np3, np2, tnode t i1⟩]
  | [_, _, _] =>
    let keep := ([0, 1, 2, 3].filter
      (fun i => ¬ 0 < ptDot (ptSub (tnode t i) xc) norm)).getD 0 0
    let e := flipTet1 keep
    let q0 := edgeInt norm xc (tnode t keep) (tnode t e.1)
    let q1 := edgeInt norm xc (tnode t keep) (tnode t e.2.1)
    let q2 := edgeInt norm xc (tnode t keep) (tnode t e.2.2)
    [⟨q0, q1, q2, tnode t keep⟩]
  | _ => []

/-- Output-count table of the amended claim: 1/3/3/1 tetrahedra for 0/1/2/3
cut-side vertices, none when the tet is fully on the cut side. -/
def clipTetCount : ℕ → ℕ
  | 0 => 1
  | 1 => 3
  | 2 => 3
  | 3 => 1
  | _ => 0

/-- C9 (amended): `superMesh::clipTet` produces 1, 3, 3, 1, 0 output
tetrahedra according to whether 0, 1, 2, 3 or 4 of the input vertices lie
on the cut side of the plane (not 0/1/3/3 for 0..3 as claimed). -/
theorem clipTet_count (t : Tetra) (clipFace : List Pt) (norm : Pt) :
    (clipTet t clipFace norm).length
      = clipTetCount (deadPts t clipFace norm).length := by
  rcases h : deadPts t clipFace norm with _ | ⟨a, _ | ⟨b, _ | ⟨c, _ | ⟨d, rest⟩⟩⟩⟩ <;>
    simp [clipTet, clipTetCount, h]

/-- Unit right tetrahedron at the origin. -/
def unitTet : Tetra := ⟨⟨0, 0, 0⟩, ⟨1, 0, 0⟩, ⟨0, 1, 0⟩, ⟨0, 0, 1⟩⟩

/-- Clipping plane `x = 1/2` (as a triangular face) with normal `(1,0,0)`. -/
def planeHalfX : List Pt := [⟨1/2, 0, 0⟩, ⟨1/2, 1, 0⟩, ⟨1/2, 0, 1⟩]

/-- Counterexample to C9 as stated: clipping the unit tetrahedron by the
plane `x = 1/2` puts exactly one vertex on the cut side, and the code
produces 3 output tetrahedra where the claim promises 1; with the plane
`x = 2` no vertex is on the cut side and the code returns the whole
tetrahedron (1 output) where the claim promises 0. -/
theorem clipTet_count_cex :
    (deadPts unitTet planeHalfX ⟨1, 0, 0⟩).length = 1 ∧
    (clipTet unitTet planeHalfX ⟨1, 0, 0⟩).length = 3 ∧
    (deadPts unitTet [⟨2, 0, 0⟩, ⟨2, 1, 0⟩, ⟨2, 0, 1⟩] ⟨1, 0, 0⟩).length = 0 ∧
    (clipTet unitTet [⟨2, 0, 0⟩, ⟨2, 1, 0⟩, ⟨2, 0, 1⟩] ⟨1, 0, 0⟩).length = 1 := by
  have h1 : deadPts unitTet planeHalfX ⟨1, 0, 0⟩ = [1] := by
    norm_num [deadPts, unitTet, planeHalfX, faceCentroid, ptDot, ptSub, ptAdd,
      ptSmul, tnode, List.filter]
  have h2 : deadPts unitTet [⟨2, 0, 0⟩, ⟨2, 1, 0⟩, ⟨2, 0, 1⟩] ⟨1, 0, 0⟩ = [] := by
    norm_num [deadPts, unitTet, faceCentroid, ptDot, ptSub, ptAdd,
      ptSmul, tnode, List.filter]
  exact ⟨by rw [h1]; rfl, by rw [clipTet_count, h1]; rfl, by rw [h2]; rfl,
    by rw [clipTet_count, h2]; rfl⟩

/-! ### Supermesh integration (`superMesh::integrate`) -/

/-- The supermesh members read by `superMesh::integrate`: the global
quadrature-point count, the tet count, the per-tet quadrature-point count,
the quadrature weights and the per-tet Jacobian determinants (the class
definition lives in superMesh.hpp, outside src/; these members are the
ones named by the spec contract). -/
structure SuperMesh where
  nQpts : ℕ
  nTets : ℕ
  nQpts_tet : ℕ
  weights : List ℚ
  detJac_tets : List ℚ

/-- Embedding of `superMesh::integrate` (superMesh.cpp lines 253-263): a
fatal error when the data length differs from `nQpts`; otherwise the loop
bodies are empty and the non-void function ends without a `return`
statement, so no value is produced (modelled as `Except.ok none`). -/
def superMeshIntegrate (sm : SuperMesh) (data : List ℚ) : Except String (Option ℚ) :=
  if data.length ≠ sm.nQpts then
    Except.error ("To integrate over supermesh, data must lie at its quadrature nodes.")
  else Except.ok none

/-- Modelled from the spec: the intended contract of `superMesh::integrate`
(design note in spec.md section 9), the quadrature sum
`Σ_tets Σ_qpts w_q · data_q · detJ_local` with the data laid out
tet-major. -/
def integrateSpec (sm : SuperMesh) (data : List ℚ) : ℚ :=
  ∑ i ∈ Finset.range sm.nTets, ∑ j ∈ Finset.range sm.nQpts_tet,
    sm.weights.getD j 0 * data.getD (i * sm.nQpts_tet + j) 0 *
      sm.detJac_tets.getD i 0

/-- One-tet supermesh with two quadrature points, unit weights and unit
Jacobian. -/
def oneTetMesh : SuperMesh :=
  { nQpts := 2, nTets := 1, nQpts_tet := 2, weights := [1, 1], detJac_tets := [1] }

/-- C8: `superMesh::integrate` terminates fatally exactly when the data
length differs from `nQpts`, but on every well-sized input it produces no
value at all (the loop bodies are empty and the non-void function has no
return statement), instead of the intended quadrature sum - here the data
`[1, 2]` on `oneTetMesh` should integrate to `3`. -/
theorem superMeshIntegrate_bug :
    (∀ (sm : SuperMesh) (data : List ℚ),
      (superMeshIntegrate sm data).isOk = true ↔ data.length = sm.nQpts) ∧
    superMeshIntegrate oneTetMesh [1, 2] = Except.ok none ∧
    integrateSpec oneTetMesh [1, 2] = 3 := by
  refine ⟨fun sm data => ?_, ?_, ?_⟩
  · unfold superMeshIntegrate
    split
    · next h => simp [Except.isOk, Except.toBool, h]
    · next h => simp [Except.isOk, Except.toBool, not_not.mp h]
  · rfl
  · norm_num [integrateSpec, oneTetMesh, Finset.sum_range_succ]

/-! ### Standard vs chain-rule flux divergence (solver.cpp, ele.cpp) -/

/-- Dense 2x2 matrix over the rationals (Jacobian at one solution point). -/
structure Mat2Q where
  a00 : ℚ
  a01 : ℚ
  a10 : ℚ
  a11 : ℚ

/-- The 2-D adjoint (cofactor matrix) as stored in `JGinv_spts` by
`ele::calcTransforms` (ele.cpp lines 973-974). -/
def adj2Q (m : Mat2Q) : Mat2Q := ⟨m.a11, -m.a01, -m.a10, m.a00⟩

/-- Modelled from the spec: application of one dense operator matrix
(nSpts x nSpts) to a nodal field, as `oper::applyGradFSpts` /
`applyDivFSpts` do (operators.cpp is outside src/; spec section 4.4 gives
`opp_grad_spts[d](i,j) = dL_j/dxi_d at spt i` acting by dense product). -/
def matApp (n : ℕ) (D : ℕ → ℕ → ℚ) (v : ℕ → ℚ) (i : ℕ) : ℚ :=
  ∑ j ∈ Finset.range n, D i j * v j

/-- Static-mesh reference flux of `ele::calcInviscidFlux_spts` (ele.cpp
lines 1713-1723): `F_ref_d = Σ_e JGinv(d,e) · F_phys_e` pointwise. -/
def fluxRefStatic (JGinv : ℕ → Mat2Q) (Fx Fy : ℕ → ℚ) : (ℕ → ℚ) × (ℕ → ℚ) :=
  (fun s => (JGinv s).a00 * Fx s + (JGinv s).a01 * Fy s,
   fun s => (JGinv s).a10 * Fx s + (JGinv s).a11 * Fy s)

/-- Modelled from the spec: the standard conservative divergence path
(`solver::calcDivF_spts` routing `oper::applyDivFSpts`):
`divF = Σ_d D_d (F_ref)_d` on the transformed flux. -/
def divFstandard (n : ℕ) (Dr Ds : ℕ → ℕ → ℚ) (JGinv : ℕ → Mat2Q)
    (Fx Fy : ℕ → ℚ) (i : ℕ) : ℚ :=
  matApp n Dr (fluxRefStatic JGinv Fx Fy).1 i + matApp n Ds (fluxRefStatic JGinv Fx Fy).2 i

/-- Embedding of `ele::transformGradF_spts` (ele.cpp lines 1857-1866, 2-D):
reassemble the divergence from the reference gradients of the physical
flux with the Jacobian entries, plus the grid-velocity terms `A`, `B`. -/
def transformGradF2D (Jac : ℕ → Mat2Q) (gv0 gv1 dU0 dU1 dF00 dF01 dF10 dF11 : ℕ → ℚ)
    (spt : ℕ) : ℚ :=
  let A := gv1 spt * (Jac spt).a01 - gv0 spt * (Jac spt).a11
  let B := gv0 spt * (Jac spt).a10 - gv1 spt * (Jac spt).a00
  (dF00 spt * (Jac spt).a11 - dF01 spt * (Jac spt).a01 + dU0 spt * A) +
  (-(dF10 spt) * (Jac spt).a10 + dF11 spt * (Jac spt).a00 + dU1 spt * B)

/-- The chain-rule divergence path (`solver::calcFluxDivergence` with
motion: `calcGradF_spts` then `transformGradF_spts`): the per-dimension
gradient operators applied to the physical flux, reassembled by
`transformGradF2D`. -/
def divFchain (n : ℕ) (Dr Ds : ℕ → ℕ → ℚ) (Jac : ℕ → Mat2Q)
    (gv0 gv1 dU0 dU1 Fx Fy : ℕ → ℚ) (spt : ℕ) : ℚ :=
  transformGradF2D Jac gv0 gv1 dU0 dU1
    (matApp n Dr Fx) (matApp n Dr Fy) (matApp n Ds Fx) (matApp n Ds Fy) spt

theorem matApp_lin (n : ℕ) (D : ℕ → ℕ → ℚ) (c d : ℚ) (v w : ℕ → ℚ) (i : ℕ) :
    matApp n D (fun j => c * v j + d * w j) i
      = c * matApp n D v i + d * matApp n D w i := by
  unfold matApp
  rw [Finset.mul_sum, Finset.mul_sum, ← Finset.sum_add_distrib]
  exact Finset.sum_congr rfl fun j _ => by ring

/-- C6 (amended): with zero grid velocity the chain-rule divergence equals
the standard conservative divergence whenever the element Jacobian is
constant over its solution points (affine mapping); the two discrete forms
are exactly equal there for every operator pair and every flux field. -/
theorem divFchain_eq_standard_constJac (n : ℕ) (Dr Ds : ℕ → ℕ → ℚ) (J : Mat2Q)
    (dU0 dU1 Fx Fy : ℕ → ℚ) (spt : ℕ) :
    divFchain n Dr Ds (fun _ => J) (fun _ => 0) (fun _ => 0) dU0 dU1 Fx Fy spt
      = divFstandard n Dr Ds (fun _ => adj2Q J) Fx Fy spt := by
  unfold divFchain transformGradF2D divFstandard fluxRefStatic adj2Q
  dsimp only
  rw [matApp_lin n Dr J.a11 (-J.a01) Fx Fy spt, matApp_lin n Ds (-J.a10) J.a00 Fx Fy spt]
  ring

/-- Lagrange derivative row table for the order-1 Lobatto tensor basis on
`[-1,1]^2` with solution points `(-1,-1),(1,-1),(-1,1),(1,1)`: the
r-direction operator. -/
def lobDr : ℕ → ℕ → ℚ := fun i j =>
  (([[-1/2, 1/2, 0, 0], [-1/2, 1/2, 0, 0],
     [0, 0, -1/2, 1/2], [0, 0, -1/2, 1/2]] : List (List ℚ)).getD i []).getD j 0

/-- The s-direction derivative operator of the same basis. -/
def lobDs : ℕ → ℕ → ℚ := fun i j =>
  (([[-1/2, 0, 1/2, 0], [0, -1/2, 0, 1/2],
     [-1/2, 0, 1/2, 0], [0, -1/2, 0, 1/2]] : List (List ℚ)).getD i []).getD j 0

/-- Order-1 Lobatto solution points of the reference quadrilateral. -/
def lobSpts : List (ℚ × ℚ) := [(-1, -1), (1, -1), (-1, 1), (1, 1)]

/-- Trapezoidal (non-affine) quadrilateral. -/
def trapNodes : List Pt := [⟨0, 0, 0⟩, ⟨2, 0, 0⟩, ⟨1, 1, 0⟩, ⟨0, 1, 0⟩]

/-- Jacobian of a 4-node quadrilateral at a reference point, assembled as
in `ele::calcTransforms` (`Jac(d1,d2) += dShape(i,d2)*node(i,d1)`). -/
def quadJacAt (nodes : List Pt) (r s : ℚ) : Mat2Q :=
  let ds := dshape_quad r s
  ⟨((nodes.zip ds).map (fun q => q.1.x * q.2.1)).sum,
   ((nodes.zip ds).map (fun q => q.1.x * q.2.2)).sum,
   ((nodes.zip ds).map (fun q => q.1.y * q.2.1)).sum,
   ((nodes.zip ds).map (fun q => q.1.y * q.2.2)).sum⟩

/-- Per-solution-point Jacobian of the trapezoid. -/
def trapJac : ℕ → Mat2Q := fun i =>
  quadJacAt trapNodes (lobSpts.getD i (0, 0)).1 (lobSpts.getD i (0, 0)).2

/-- Physical flux `F = (0, g)` with `g` the nodal values of the
r-coordinate. -/
def trapFy : ℕ → ℚ := fun i => (lobSpts.getD i (0, 0)).1

/-- Counterexample to C6 as stated: on the non-affine trapezoid with zero
grid velocity the standard conservative divergence and the chain-rule
divergence of the same physical flux differ at the first solution point
(`1/2` versus `0`): the two forms do not agree exactly on every static
element. -/
theorem divF_forms_differ_cex :
    divFstandard 4 lobDr lobDs (fun i => adj2Q (trapJac i)) (fun _ => 0) trapFy 0
      ≠ divFchain 4 lobDr lobDs trapJac (fun _ => 0) (fun _ => 0)
          (fun _ => 0) (fun _ => 0) (fun _ => 0) trapFy 0 := by
  have h1 : divFstandard 4 lobDr lobDs (fun i => adj2Q (trapJac i))
      (fun _ => 0) trapFy 0 = 1/2 := by
    norm_num [divFstandard, fluxRefStatic, matApp, adj2Q, lobDr, lobDs, trapJac,
      quadJacAt, trapNodes, lobSpts, trapFy, dshape_quad, Finset.sum_range_succ]
  have h2 : divFchain 4 lobDr lobDs trapJac (fun _ => 0) (fun _ => 0)
      (fun _ => 0) (fun _ => 0) (fun _ => 0) trapFy 0 = 0 := by
    norm_num [divFchain, transformGradF2D, matApp, lobDr, lobDs, trapJac,
      quadJacAt, trapNodes, lobSpts, trapFy, dshape_quad, Finset.sum_range_succ]
  rw [h1, h2]
  norm_num

/-! ### Geometric transforms (`ele::calcTransforms`, 2-D) -/

/-- Dense 2x2 matrix over the reals. -/
structure Mat2 where
  a00 : ℝ
  a01 : ℝ
  a10 : ℝ
  a11 : ℝ

/-- Determinant closed form of ele.cpp line 971. -/
noncomputable def det2 (m : Mat2) : ℝ := m.a00 * m.a11 - m.a10 * m.a01

/-- Adjoint (cofactor) closed form of ele.cpp lines 973-974. -/
noncomputable def adj2 (m : Mat2) : Mat2 := ⟨m.a11, -m.a01, -m.a10, m.a00⟩

/-- Jacobian assembly `Jac(d1,d2) += dShape(i,d2) * node(i,d1)` of
`ele::calcTransforms` (nodes as `(x,y)` pairs, shape derivatives as
`(d/dr, d/ds)` pairs). -/
noncomputable def jacFromNodes (nodes : List (ℝ × ℝ)) (ds : List (ℝ × ℝ)) : Mat2 :=
  ⟨((nodes.zip ds).map fun q => q.2.1 * q.1.1).sum,
   ((nodes.zip ds).map fun q => q.2.2 * q.1.1).sum,
   ((nodes.zip ds).map fun q => q.2.1 * q.1.2).sum,
   ((nodes.zip ds).map fun q => q.2.2 * q.1.2).sum⟩

/-- Transform data stored per solution point. -/
structure SptTrans where
  jac : Mat2
  detJac : ℝ
  jginv : Mat2

/-- Transform data stored per flux point. -/
structure FptTrans where
  jac : Mat2
  detJac : ℝ
  jginv : Mat2
  norm0 : ℝ
  norm1 : ℝ
  dA : ℝ

noncomputable instance : Inhabited FptTrans :=
  ⟨⟨⟨0, 0, 0, 0⟩, 0, ⟨0, 0, 0, 0⟩, 0, 0, 0⟩⟩

noncomputable def calcSptTransform (nodes ds : List (ℝ × ℝ)) : SptTrans :=
  let j := jacFromNodes nodes ds
  ⟨j, det2 j, adj2 j⟩

/-- Solution-point loop of `ele::calcTransforms` (ele.cpp lines 953-987):
compute the Jacobian, determinant and adjoint per point; `FatalError` only
when a determinant is strictly negative (`detJac_spts[spt] < 0`). -/
noncomputable def calcTransformsSpts (nodes : List (ℝ × ℝ)) :
    List (List (ℝ × ℝ)) → Except String (List SptTrans)
  | [] => Except.ok []
  | d :: rest =>
    let r := calcSptTransform nodes d
    if r.detJac < 0 then Except.error ("Negative Jacobian at solution points.")
    else
      match calcTransformsSpts nodes rest with
      | Except.ok l => Except.ok (r :: l)
      | Except.error e => Except.error e

/-- Flux-point loop of `ele::calcTransforms` (ele.cpp lines 990-1050): the
physical normal is `JGinv^T` applied to the reference normal, `dA` is its
magnitude; when `|dA| < 1e-10` (collapsed edge) both are zeroed, otherwise
the stored normal is divided by `dA`.  No determinant check is performed
here. -/
noncomputable def calcFptTransform (nodes ds : List (ℝ × ℝ)) (tnorm : ℝ × ℝ) : FptTrans :=
  let j := jacFromNodes nodes ds
  let gi := adj2 j
  let n0 := gi.a00 * tnorm.1 + gi.a10 * tnorm.2
  let n1 := gi.a01 * tnorm.1 + gi.a11 * tnorm.2
  let dA0 := Real.sqrt (n0 ^ 2 + n1 ^ 2)
  if |dA0| < 1e-10 then ⟨j, det2 j, gi, 0, 0, 0⟩
  else ⟨j, det2 j, gi, n0 / dA0, n1 / dA0, dA0⟩

noncomputable def fptResults (nodes : List (ℝ × ℝ)) (dshF : List (List (ℝ × ℝ)))
    (tN : List (ℝ × ℝ)) : List FptTrans :=
  (dshF.zip tN).map fun q => calcFptTransform nodes q.1 q.2

/-- Embedding of `ele::calcTransforms` (static mesh, 2-D): the
solution-point loop (which can terminate fatally) followed by the
flux-point loop (which cannot). -/
noncomputable def calcTransforms (nodes : List (ℝ × ℝ)) (dshS dshF : List (List (ℝ × ℝ)))
    (tN : List (ℝ × ℝ)) : Except String (List SptTrans × List FptTrans) :=
  match calcTransformsSpts nodes dshS with
  | Except.ok l => Except.ok (l, fptResults nodes dshF tN)
  | Except.error e => Except.error e

/-- The solution-point determinants of an element. -/
noncomputable def sptDets (nodes : List (ℝ × ℝ)) (dshS : List (List (ℝ × ℝ))) : List ℝ :=
  dshS.map fun d => det2 (jacFromNodes nodes d)

theorem calcTransformsSpts_ok_iff (nodes : List (ℝ × ℝ)) (dshS : List (List (ℝ × ℝ))) :
    (calcTransformsSpts nodes dshS).isOk = true ↔ ∀ x ∈ sptDets nodes dshS, 0 ≤ x := by
  induction dshS with
  | nil => simp [calcTransformsSpts, sptDets, Except.isOk, Except.toBool]
  | cons d rest ih =>
    simp only [calcTransformsSpts, sptDets, List.map_cons, List.mem_cons]
    by_cases hd : det2 (jacFromNodes nodes d) < 0
    · rw [if_pos (show (calcSptTransform nodes d).detJac < 0 from hd)]
      simp only [Except.isOk, Except.toBool]
      constructor
      · intro h; cases h
      · intro h
        exact absurd (h _ (Or.inl rfl)) (not_le.mpr hd)
    · rw [if_neg (show ¬ (calcSptTransform nodes d).detJac < 0 from hd)]
      rcases hrec : calcTransformsSpts nodes rest with e | l
      · simp only [hrec, Except.isOk, Except.toBool] at ih ⊢
        constructor
        · intro h; cases h
        · intro h
          exact absurd (ih.mpr fun x hx => h x (Or.inr hx)) (by simp)
      · simp only [hrec, Except.isOk, Except.toBool] at ih ⊢
        constructor
        · intro _ x hx
          rcases hx with hx | hx
          · rw [hx]; exact not_lt.mp hd
          · exact ih.mp trivial x hx
        · intro _; trivial

/-- C2 (amended): `ele::calcTransforms` terminates fatally iff some
solution-point determinant is strictly negative; a zero determinant at a
solution point is accepted, and flux-point determinants are never checked,
so completion does not guarantee strictly positive determinants. -/
theorem calcTransforms_fatal_iff (nodes : List (ℝ × ℝ)) (dshS dshF : List (List (ℝ × ℝ)))
    (tN : List (ℝ × ℝ)) :
    (calcTransforms nodes dshS dshF tN).isOk = true ↔ ∀ x ∈ sptDets nodes dshS, 0 ≤ x := by
  rw [← calcTransformsSpts_ok_iff nodes dshS]
  unfold calcTransforms
  rcases h : calcTransformsSpts nodes dshS with e | l <;>
    simp [h, Except.isOk, Except.toBool]

/-- Fully collapsed quadrilateral: all four nodes coincide. -/
noncomputable def collapsedNodes : List (ℝ × ℝ) := [(0, 0), (0, 0), (0, 0), (0, 0)]

/-- Bilinear shape derivatives at the reference point `(0,0)`. -/
noncomputable def dshAt00 : List (ℝ × ℝ) := [(-1/4, -1/4), (1/4, -1/4), (1/4, 1/4), (-1/4, 1/4)]

/-- Bilinear shape derivatives at the reference point `(0,-1)`. -/
noncomputable def dshAt0m1 : List (ℝ × ℝ) := [(-1/2, -1/4), (1/2, -1/4), (0, 1/4), (0, 1/4)]

/-- Counterexample to C2 as stated: on the collapsed element every
solution-point determinant is `0` (non-positive), yet `calcTransforms`
completes without a fatal error. -/
theorem calcTransforms_nonpositive_ok_cex :
    sptDets collapsedNodes [dshAt00] = [0] ∧
    (calcTransforms collapsedNodes [dshAt00] [dshAt0m1] [(0, -1)]).isOk = true := by
  have hjac : jacFromNodes collapsedNodes dshAt00 = ⟨0, 0, 0, 0⟩ := by
    norm_num [jacFromNodes, collapsedNodes, dshAt00]
  have hspt : calcTransformsSpts collapsedNodes [dshAt00]
      = Except.ok [⟨⟨0, 0, 0, 0⟩, 0, ⟨0, 0, 0, 0⟩⟩] := by
    norm_num [calcTransformsSpts, calcSptTransform, hjac, det2, adj2]
  exact ⟨by norm_num [sptDets, hjac, det2],
    by simp [calcTransforms, hspt, Except.isOk, Except.toBool]⟩

theorem normalize_branch (n0 n1 : ℝ) (h : ¬ |Real.sqrt (n0 ^ 2 + n1 ^ 2)| < 1e-10) :
    (1e-10 : ℝ) ≤ Real.sqrt (n0 ^ 2 + n1 ^ 2) ∧
    (n0 / Real.sqrt (n0 ^ 2 + n1 ^ 2)) ^ 2 + (n1 / Real.sqrt (n0 ^ 2 + n1 ^ 2)) ^ 2 = 1 := by
  have hnn : 0 ≤ Real.sqrt (n0 ^ 2 + n1 ^ 2) := Real.sqrt_nonneg _
  rw [abs_of_nonneg hnn] at h
  have h10 : (1e-10 : ℝ) ≤ Real.sqrt (n0 ^ 2 + n1 ^ 2) := not_lt.mp h
  have hpos : 0 < Real.sqrt (n0 ^ 2 + n1 ^ 2) := lt_of_lt_of_le (by norm_num) h10
  have hS : Real.sqrt (n0 ^ 2 + n1 ^ 2) ^ 2 = n0 ^ 2 + n1 ^ 2 :=
    Real.sq_sqrt (by positivity)
  have hSpos : 0 < n0 ^ 2 + n1 ^ 2 := by
    rw [← hS]
    positivity
  refine ⟨h10, ?_⟩
  rw [div_pow, div_pow, div_add_div_same, hS, div_self (ne_of_gt hSpos)]

theorem calcFptTransform_norm (nodes ds : List (ℝ × ℝ)) (tnorm : ℝ × ℝ) :
    ((calcFptTransform nodes ds tnorm).dA = 0 ∧
     (calcFptTransform nodes ds tnorm).norm0 = 0 ∧
     (calcFptTransform nodes ds tnorm).norm1 = 0) ∨
    ((1e-10 : ℝ) ≤ (calcFptTransform nodes ds tnorm).dA ∧
     (calcFptTransform nodes ds tnorm).norm0 ^ 2
       + (calcFptTransform nodes ds tnorm).norm1 ^ 2 = 1) := by
  unfold calcFptTransform
  dsimp only
  split
  · exact Or.inl ⟨rfl, rfl, rfl⟩
  · next h => exact Or.inr ⟨(normalize_branch _ _ h).1, (normalize_branch _ _ h).2⟩

/-- C5 (amended): after the flux-point transform loop of
`ele::calcTransforms`, every stored flux-point normal is either the zero
vector with `dA = 0` (collapsed edge), or a unit vector
(`norm0^2 + norm1^2 = 1`) with `dA >= 1e-10`; `dA_fpts` holds the
magnitude separately, so the Euclidean norm of `norm_fpts` equals `dA`
only when `dA = 1`. -/
theorem fptResults_norm_dA (nodes : List (ℝ × ℝ)) (dshF : List (List (ℝ × ℝ)))
    (tN : List (ℝ × ℝ)) :
    (fptResults nodes dshF tN).Forall (fun r =>
      (r.dA = 0 ∧ r.norm0 = 0 ∧ r.norm1 = 0) ∨
      ((1e-10 : ℝ) ≤ r.dA ∧ r.norm0 ^ 2 + r.norm1 ^ 2 = 1)) := by
  rw [fptResults, List.forall_iff_forall_mem]
  intro r hr
  rcases List.mem_map.mp hr with ⟨q, _, rfl⟩
  exact calcFptTransform_norm nodes q.1 q.2

/-- Square element of side 4 (Jacobian `2 I`, area element `dA = 2`). -/
noncomputable def sqNodes : List (ℝ × ℝ) := [(0, 0), (4, 0), (4, 4), (0, 4)]

/-- Smallest bounding-box extent (the element size `h` of the spec). -/
noncomputable def hSizeR (nodes : List (ℝ × ℝ)) : ℝ :=
  match nodes with
  | [] => 0
  | n :: t =>
    min ((t.foldl (fun a p => max a p.1) n.1) - (t.foldl (fun a p => min a p.1) n.1))
        ((t.foldl (fun a p => max a p.2) n.2) - (t.foldl (fun a p => min a p.2) n.2))

/-- Counterexample to C5 as stated: on the side-4 square the stored normal
at the bottom-face flux point is the unit vector `(0,-1)` while
`dA = 2`, so the Euclidean norm of `norm_fpts` differs from `dA_fpts` by
`1`, far beyond `1e-12 * h` with `h = 4`. -/
theorem fpt_norm_neq_dA_cex :
    ((fptResults sqNodes [dshAt0m1] [(0, -1)]).getD 0 default).dA = 2 ∧
    ((fptResults sqNodes [dshAt0m1] [(0, -1)]).getD 0 default).norm0 = 0 ∧
    ((fptResults sqNodes [dshAt0m1] [(0, -1)]).getD 0 default).norm1 = -1 ∧
    hSizeR sqNodes = 4 ∧
    ¬ (|Real.sqrt (((fptResults sqNodes [dshAt0m1] [(0, -1)]).getD 0 default).norm0 ^ 2
          + ((fptResults sqNodes [dshAt0m1] [(0, -1)]).getD 0 default).norm1 ^ 2)
        - ((fptResults sqNodes [dshAt0m1] [(0, -1)]).getD 0 default).dA|
        ≤ 1e-12 * hSizeR sqNodes) := by
  have h4 : Real.sqrt 4 = 2 := by
    rw [show (4 : ℝ) = 2 ^ 2 by norm_num]
    exact Real.sqrt_sq (by norm_num)
  have hjac : jacFromNodes sqNodes dshAt0m1 = ⟨2, 0, 0, 2⟩ := by
    norm_num [jacFromNodes, sqNodes, dshAt0m1]
  have hr : fptResults sqNodes [dshAt0m1] [(0, -1)]
      = [⟨⟨2, 0, 0, 2⟩, 4, ⟨2, 0, 0, 2⟩, 0, -1, 2⟩] := by
    norm_num [fptResults, calcFptTransform, hjac, det2, adj2, h4]
  have hh : hSizeR sqNodes = 4 := by
    norm_num [hSizeR, sqNodes, min_def, max_def]
  rw [hr, hh]
  norm_num [Real.sqrt_one]

/-! ### The RK driver (`solver::update`, solver.cpp lines 98-134) -/

/-- Solver-level state: the parameter object and the element container.
The model covers the non-overset branch of `solver::timeStepA/B` (on an
overset mesh with field interpolation the loops skip blanked cells); mesh
motion and the residual pipeline enter as explicit state transformers. -/
structure SolverState where
  params : FlowParams
  eles : List EleState

def mapEles (f : EleState → EleState) (σ : SolverState) : SolverState :=
  { σ with eles := σ.eles.map f }

/-- Embedding of `solver::calcDt` (solver.cpp lines 216-231, serial path):
every element recomputes its `dt` member via `ele::calcDt`, and
`params->dt` becomes the minimum over the elements (the `INFINITY` seed of
the C++ fold is modelled by `List.minimum?`; with no elements `params->dt`
is kept). -/
def solverCalcDt (cfl : ℕ → ℚ) (σ : SolverState) : SolverState :=
  { params := { σ.params with
      dt := ((σ.eles.map (eleCalcDt cfl σ.params)).min?).getD σ.params.dt }
    eles := σ.eles.map (fun e => { e with dt := eleCalcDt cfl σ.params e }) }

/-- Embedding of `solver::moveMesh` (solver.cpp line 580): an immediate
return on a static mesh (`params->motion == 0`); the moving branch is the
abstract transformer `M`. -/
def moveMeshModel (M : ℕ → SolverState → SolverState) (step : ℕ)
    (σ : SolverState) : SolverState :=
  if σ.params.motion = 0 then σ else M step σ

/-- Line `params->rkTime = params->time + params->RKa[step]*params->dt`. -/
def setRkTime (step : ℕ) (σ : SolverState) : SolverState :=
  { σ with params := { σ.params with
      rkTime := σ.params.time + σ.params.RKa.getD step 0 * σ.params.dt } }

/-- Embedding of `solver::timeStepA` (non-overset branch): every element
advances by `ele::timeStepA(step, RKa[step+1])` (or the `_source` variant
under PMG). -/
def solverTimeStepA (PMG : Bool) (step : ℕ) (σ : SolverState) : SolverState :=
  if PMG then mapEles (timeStepA_source σ.params step (σ.params.RKa.getD (step + 1) 0)) σ
  else mapEles (timeStepA σ.params step (σ.params.RKa.getD (step + 1) 0)) σ

/-- Embedding of `solver::timeStepB` (non-overset branch):
`ele::timeStepB(step, RKb[step])` on every element. -/
def solverTimeStepB (PMG : Bool) (step : ℕ) (σ : SolverState) : SolverState :=
  if PMG then mapEles (timeStepB_source σ.params step (σ.params.RKb.getD step 0)) σ
  else mapEles (timeStepB σ.params step (σ.params.RKb.getD step 0)) σ

/-- One intermediate RK stage of `solver::update` (loop body, solver.cpp
lines 106-116): set `rkTime`, move the mesh, snapshot `U0` at stage 0,
compute the residual (abstract transformer `R`), apply `timeStepA`. -/
def doStageA (M R : ℕ → SolverState → SolverState) (PMG : Bool) (step : ℕ)
    (σ : SolverState) : SolverState :=
  let σ1 := setRkTime step σ
  let σ2 := moveMeshModel M step σ1
  let σ3 := if step = 0 then mapEles copyUspts_U0 σ2 else σ2
  let σ4 := R step σ3
  solverTimeStepA PMG step σ4

/-- Stages `0..k-1` of the intermediate loop, in program order. -/
def stageLoopA (M R : ℕ → SolverState → SolverState) (PMG : Bool) :
    ℕ → SolverState → SolverState
  | 0, σ => σ
  | k + 1, σ => doStageA M R PMG k (stageLoopA M R PMG k σ)

/-- The final loop `for (step=0; step<nRKSteps; step++) timeStepB(step)`. -/
def stageLoopB (PMG : Bool) : ℕ → SolverState → SolverState
  | 0, σ => σ
  | k + 1, σ => solverTimeStepB PMG k (stageLoopB PMG k σ)

/-- `params->iter++` followed by the optional `calcDt()` call
(`if (params->dtType != 0) calcDt()`). -/
def preStages (cfl : ℕ → ℚ) (σ : SolverState) : SolverState :=
  let σa := { σ with params := { σ.params with iter := σ.params.iter + 1 } }
  if σa.params.dtType ≠ 0 then solverCalcDt cfl σa else σa

/-- Embedding of `solver::update` (solver.cpp lines 98-134): intermediate
stages `0..S-2` with `timeStepA`, the final-stage residual, the restore
`U = U0` (only when `S > 1`), the `timeStepB` accumulation over all `S`
stages, and `params->time += params->dt`. -/
def update (M R : ℕ → SolverState → SolverState) (PMG : Bool) (cfl : ℕ → ℚ)
    (σ : SolverState) : SolverState :=
  let σb := preStages cfl σ
  let S := σb.params.nRKSteps
  let σc := stageLoopA M R PMG (S - 1) σb
  let σd := setRkTime (S - 1) σc
  let σe := moveMeshModel M (S - 1) σd
  let σf := R (S - 1) σe
  let σg := if 1 < S then mapEles copyU0_Uspts σf else σf
  let σh := stageLoopB PMG S σg
  { σh with params := { σh.params with time := σh.params.time + σh.params.dt } }

theorem getD_map (f : EleState → EleState) (l : List EleState) (i : ℕ)
    (h : i < l.length) : (l.map f).getD i default = f (l.getD i default) := by
  rw [List.getD_eq_getElem?_getD, List.getD_eq_getElem?_getD, List.getElem?_map,
    List.getElem?_eq_getElem h]
  rfl

theorem stageLoopB_spec (σ : SolverState) :
    ∀ m : ℕ,
    (stageLoopB false m σ).params = σ.params ∧
    (stageLoopB false m σ).eles.length = σ.eles.length ∧
    ∀ i, i < σ.eles.length →
      ((stageLoopB false m σ).eles.getD i default).U0
        = (σ.eles.getD i default).U0 ∧
      ((stageLoopB false m σ).eles.getD i default).divF_spts
        = (σ.eles.getD i default).divF_spts ∧
      ((stageLoopB false m σ).eles.getD i default).detJac_spts
        = (σ.eles.getD i default).detJac_spts ∧
      ((stageLoopB false m σ).eles.getD i default).nSpts
        = (σ.eles.getD i default).nSpts ∧
      ((stageLoopB false m σ).eles.getD i default).nFields
        = (σ.eles.getD i default).nFields ∧
      ((stageLoopB false m σ).eles.getD i default).dt
        = (if m = 0 then (σ.eles.getD i default).dt
           else if σ.params.dtType ≠ 2 then σ.params.dt
           else (σ.eles.getD i default).dt) ∧
      ∀ spt fld, ((stageLoopB false m σ).eles.getD i default).U_spts spt fld
        = if spt < (σ.eles.getD i default).nSpts ∧ fld < (σ.eles.getD i default).nFields then
            (σ.eles.getD i default).U_spts spt fld - ∑ s ∈ Finset.range m,
              σ.params.RKb.getD s 0 *
                (if σ.params.dtType ≠ 2 then σ.params.dt else (σ.eles.getD i default).dt) *
                (σ.eles.getD i default).divF_spts s spt fld /
                (σ.eles.getD i default).detJac_spts spt
          else (σ.eles.getD i default).U_spts spt fld := by
  intro m
  induction m with
  | zero =>
    refine ⟨rfl, rfl, fun i hi => ⟨rfl, rfl, rfl, rfl, rfl, by simp [stageLoopB],
      fun spt fld => ?_⟩⟩
    show (σ.eles.getD i default).U_spts spt fld = _
    split <;> simp
  | succ m ih =>
    obtain ⟨hp, hl, he⟩ := ih
    have hstep : stageLoopB false (m + 1) σ
        = mapEles (timeStepB (stageLoopB false m σ).params m
            ((stageLoopB false m σ).params.RKb.getD m 0)) (stageLoopB false m σ) := by
      rw [stageLoopB]
      simp [solverTimeStepB]
    rw [hstep]
    have hi2 : ∀ i, i < σ.eles.length → i < (stageLoopB false m σ).eles.length := by
      intro i hi
      omega
    refine ⟨hp, by rw [mapEles]; simpa using hl, fun i hi => ?_⟩
    have hgd : ((mapEles (timeStepB (stageLoopB false m σ).params m
          ((stageLoopB false m σ).params.RKb.getD m 0)) (stageLoopB false m σ)).eles.getD i default)
        = timeStepB (stageLoopB false m σ).params m
            ((stageLoopB false m σ).params.RKb.getD m 0)
            ((stageLoopB false m σ).eles.getD i default) := getD_map _ _ i (hi2 i hi)
    obtain ⟨h0, hdf, hdj, hns, hnf, hdt, hu⟩ := he i hi
    have hdtN : (if (stageLoopB false m σ).params.dtType ≠ 2
          then (stageLoopB false m σ).params.dt
          else ((stageLoopB false m σ).eles.getD i default).dt)
        = (if σ.params.dtType ≠ 2 then σ.params.dt else (σ.eles.getD i default).dt) := by
      rw [hp, hdt]
      by_cases h2 : σ.params.dtType ≠ 2 <;> simp [h2]
    rw [hgd]
    refine ⟨h0, hdf, hdj, hns, hnf, ?_, fun spt fld => ?_⟩
    · show (if (stageLoopB false m σ).params.dtType ≠ 2
          then (stageLoopB false m σ).params.dt
          else ((stageLoopB false m σ).eles.getD i default).dt) = _
      rw [hdtN]
      simp
    · show (if spt < ((stageLoopB false m σ).eles.getD i default).nSpts ∧
            fld < ((stageLoopB false m σ).eles.getD i default).nFields then
          ((stageLoopB false m σ).eles.getD i default).U_spts spt fld -
            (stageLoopB false m σ).params.RKb.getD m 0 *
            (if (stageLoopB false m σ).params.dtType ≠ 2
              then (stageLoopB false m σ).params.dt
              else ((stageLoopB false m σ).eles.getD i default).dt) *
            ((stageLoopB false m σ).eles.getD i default).divF_spts m spt fld /
            ((stageLoopB false m σ).eles.getD i default).detJac_spts spt
        else ((stageLoopB false m σ).eles.getD i default).U_spts spt fld) = _
      rw [hns, hnf, hdf, hdj, hdtN, hp, hu spt fld]
      by_cases hg : spt < (σ.eles.getD i default).nSpts ∧ fld < (σ.eles.getD i default).nFields
      · rw [if_pos hg, if_pos hg, if_pos hg, Finset.sum_range_succ]
        ring
      · rw [if_neg hg, if_neg hg, if_neg hg]

theorem doStageA_spec (M R : ℕ → SolverState → SolverState)
    (hRp : ∀ s σ, (R s σ).params = σ.params)
    (hRlen : ∀ s σ, (R s σ).eles.length = σ.eles.length)
    (hRele : ∀ s σ i, i < σ.eles.length →
      ((R s σ).eles.getD i default).U0 = (σ.eles.getD i default).U0 ∧
      ((R s σ).eles.getD i default).detJac_spts = (σ.eles.getD i default).detJac_spts ∧
      ((R s σ).eles.getD i default).nSpts = (σ.eles.getD i default).nSpts ∧
      ((R s σ).eles.getD i default).nFields = (σ.eles.getD i default).nFields)
    (step : ℕ) (τ : SolverState) (hmot : τ.params.motion = 0) :
    (doStageA M R false step τ).params = (setRkTime step τ).params ∧
    (doStageA M R false step τ).eles.length = τ.eles.length ∧
    ∀ i, i < τ.eles.length →
      ((doStageA M R false step τ).eles.getD i default).detJac_spts
        = (τ.eles.getD i default).detJac_spts ∧
      ((doStageA M R false step τ).eles.getD i default).nSpts
        = (τ.eles.getD i default).nSpts ∧
      ((doStageA M R false step τ).eles.getD i default).nFields
        = (τ.eles.getD i default).nFields ∧
      ((doStageA M R false step τ).eles.getD i default).U0
        = (if step = 0 then (τ.eles.getD i default).U_spts
           else (τ.eles.getD i default).U0) ∧
      ∀ spt fld : ℕ,
        spt < ((doStageA M R false step τ).eles.getD i default).nSpts →
        fld < ((doStageA M R false step τ).eles.getD i default).nFields →
        ((doStageA M R false step τ).eles.getD i default).U_spts spt fld
          = ((doStageA M R false step τ).eles.getD i default).U0 spt fld
            - τ.params.RKa.getD (step + 1) 0
              * ((doStageA M R false step τ).eles.getD i default).dt
              * ((doStageA M R false step τ).eles.getD i default).divF_spts step spt fld
              / ((doStageA M R false step τ).eles.getD i default).detJac_spts spt := by
  have h2 : moveMeshModel M step (setRkTime step τ) = setRkTime step τ := by
    simp [moveMeshModel, setRkTime, hmot]
  have hstage : doStageA M R false step τ
      = mapEles (timeStepA (R step (if step = 0
            then mapEles copyUspts_U0 (setRkTime step τ) else setRkTime step τ)).params step
          ((R step (if step = 0
            then mapEles copyUspts_U0 (setRkTime step τ) else setRkTime step τ)).params.RKa.getD
            (step + 1) 0))
          (R step (if step = 0
            then mapEles copyUspts_U0 (setRkTime step τ) else setRkTime step τ)) := by
    rw [doStageA, h2]
    simp [solverTimeStepA]
  rw [hstage]
  have h3p : (if step = 0 then mapEles copyUspts_U0 (setRkTime step τ)
      else setRkTime step τ).params = (setRkTime step τ).params := by
    split <;> rfl
  have h3l : (if step = 0 then mapEles copyUspts_U0 (setRkTime step τ)
      else setRkTime step τ).eles.length = τ.eles.length := by
    split
    · show ((setRkTime step τ).eles.map copyUspts_U0).length = _
      rw [List.length_map]
      rfl
    · rfl
  have h3e : ∀ i, i < τ.eles.length →
      ((if step = 0 then mapEles copyUspts_U0 (setRkTime step τ)
        else setRkTime step τ).eles.getD i default).detJac_spts
        = (τ.eles.getD i default).detJac_spts ∧
      ((if step = 0 then mapEles copyUspts_U0 (setRkTime step τ)
        else setRkTime step τ).eles.getD i default).nSpts
        = (τ.eles.getD i default).nSpts ∧
      ((if step = 0 then mapEles copyUspts_U0 (setRkTime step τ)
        else setRkTime step τ).eles.getD i default).nFields
        = (τ.eles.getD i default).nFields ∧
      ((if step = 0 then mapEles copyUspts_U0 (setRkTime step τ)
        else setRkTime step τ).eles.getD i default).U0
        = (if step = 0 then (τ.eles.getD i default).U_spts
           else (τ.eles.getD i default).U0) := by
    intro i hi
    split
    · rw [show (mapEles copyUspts_U0 (setRkTime step τ)).eles.getD i default
          = copyUspts_U0 ((setRkTime step τ).eles.getD i default)
        from getD_map _ _ i hi]
      exact ⟨rfl, rfl, rfl, rfl⟩
    · exact ⟨rfl, rfl, rfl, rfl⟩
  constructor
  · show (R step _).params = _
    rw [hRp, h3p]
  constructor
  · show ((R step _).eles.map _).length = _
    rw [List.length_map, hRlen, h3l]
  · intro i hi
    have hi3 : i < (if step = 0 then mapEles copyUspts_U0 (setRkTime step τ)
        else setRkTime step τ).eles.length := by omega
    have hi4 : i < (R step (if step = 0 then mapEles copyUspts_U0 (setRkTime step τ)
        else setRkTime step τ)).eles.length := by
      rw [hRlen]
      exact hi3
    have hmap : (mapEles (timeStepA (R step (if step = 0
          then mapEles copyUspts_U0 (setRkTime step τ) else setRkTime step τ)).params step
          ((R step (if step = 0
            then mapEles copyUspts_U0 (setRkTime step τ) else setRkTime step τ)).params.RKa.getD
            (step + 1) 0))
          (R step (if step = 0
            then mapEles copyUspts_U0 (setRkTime step τ) else setRkTime step τ))).eles.getD i default
        = timeStepA (R step (if step = 0
            then mapEles copyUspts_U0 (setRkTime step τ) else setRkTime step τ)).params step
          ((R step (if step = 0
            then mapEles copyUspts_U0 (setRkTime step τ) else setRkTime step τ)).params.RKa.getD
            (step + 1) 0)
          ((R step (if step = 0
            then mapEles copyUspts_U0 (setRkTime step τ) else setRkTime step τ)).eles.getD i default) :=
      getD_map _ _ i hi4
    rw [hmap]
    obtain ⟨hc1, hc2, hc3, hc4⟩ := h3e i hi
    obtain ⟨hr1, hr2, hr3, hr4⟩ := hRele step _ i hi3
    refine ⟨hr2.trans hc1, hr3.trans hc2, hr4.trans hc3, hr1.trans hc4, ?_⟩
    intro spt fld hspt hfld
    have hrka : (R step (if step = 0 then mapEles copyUspts_U0 (setRkTime step τ)
        else setRkTime step τ)).params.RKa.getD (step + 1) 0
        = τ.params.RKa.getD (step + 1) 0 := by
      rw [hRp, h3p]
      rfl
    revert hspt hfld
    simp only [timeStepA]
    intro hspt hfld
    rw [if_pos ⟨hspt, hfld⟩, hrka]

theorem stageLoopA_spec (M R : ℕ → SolverState → SolverState)
    (hRp : ∀ s σ, (R s σ).params = σ.params)
    (hRlen : ∀ s σ, (R s σ).eles.length = σ.eles.length)
    (hRele : ∀ s σ i, i < σ.eles.length →
      ((R s σ).eles.getD i default).U0 = (σ.eles.getD i default).U0 ∧
      ((R s σ).eles.getD i default).detJac_spts = (σ.eles.getD i default).detJac_spts ∧
      ((R s σ).eles.getD i default).nSpts = (σ.eles.getD i default).nSpts ∧
      ((R s σ).eles.getD i default).nFields = (σ.eles.getD i default).nFields)
    (σ : SolverState) (hm : σ.params.motion = 0) :
    ∀ k : ℕ,
    (stageLoopA M R false k σ).params.time = σ.params.time ∧
    (stageLoopA M R false k σ).params.dt = σ.params.dt ∧
    (stageLoopA M R false k σ).params.dtType = σ.params.dtType ∧
    (stageLoopA M R false k σ).params.nRKSteps = σ.params.nRKSteps ∧
    (stageLoopA M R false k σ).params.RKa = σ.params.RKa ∧
    (stageLoopA M R false k σ).params.RKb = σ.params.RKb ∧
    (stageLoopA M R false k σ).params.motion = 0 ∧
    (stageLoopA M R false k σ).eles.length = σ.eles.length ∧
    ∀ i, i < σ.eles.length →
      ((stageLoopA M R false k σ).eles.getD i default).detJac_spts
        = (σ.eles.getD i default).detJac_spts ∧
      ((stageLoopA M R false k σ).eles.getD i default).nSpts
        = (σ.eles.getD i default).nSpts ∧
      ((stageLoopA M R false k σ).eles.getD i default).nFields
        = (σ.eles.getD i default).nFields ∧
      (1 ≤ k → ((stageLoopA M R false k σ).eles.getD i default).U0
        = (σ.eles.getD i default).U_spts) := by
  intro k
  induction k with
  | zero =>
    exact ⟨rfl, rfl, rfl, rfl, rfl, rfl, hm, rfl,
      fun i hi => ⟨rfl, rfl, rfl, fun h => absurd h (by omega)⟩⟩
  | succ k ih =>
    obtain ⟨ht, hdt, hdty, hnrk, hrka, hrkb, hmot, hlen, hele⟩ := ih
    obtain ⟨hdp, hdl, hde⟩ := doStageA_spec M R hRp hRlen hRele k
      (stageLoopA M R false k σ) hmot
    have hA : stageLoopA M R false (k + 1) σ
        = doStageA M R false k (stageLoopA M R false k σ) := rfl
    rw [hA]
    refine ⟨?_, ?_, ?_, ?_, ?_, ?_, ?_, ?_, fun i hi => ?_⟩
    · rw [hdp]; exact ht
    · rw [hdp]; exact hdt
    · rw [hdp]; exact hdty
    · rw [hdp]; exact hnrk
    · rw [hdp]; exact hrka
    · rw [hdp]; exact hrkb
    · rw [hdp]; exact hmot
    · rw [hdl]; exact hlen
    · have hi2 : i < (stageLoopA M R false k σ).eles.length := by omega
      obtain ⟨hd1, hd2, hd3, hd4, _⟩ := hde i hi2
      obtain ⟨he1, he2, he3, he4⟩ := hele i hi
      refine ⟨hd1.trans he1, hd2.trans he2, hd3.trans he3, fun _ => ?_⟩
      rw [hd4]
      by_cases hk : k = 0
      · subst hk
        rw [if_pos rfl]
        rfl
      · rw [if_neg hk]
        exact he4 (by omega)

theorem solverCalcDt_frame (cfl : ℕ → ℚ) (σ : SolverState) :
    (solverCalcDt cfl σ).params.time = σ.params.time ∧
    (solverCalcDt cfl σ).params.dtType = σ.params.dtType ∧
    (solverCalcDt cfl σ).params.nRKSteps = σ.params.nRKSteps ∧
    (solverCalcDt cfl σ).params.RKa = σ.params.RKa ∧
    (solverCalcDt cfl σ).params.RKb = σ.params.RKb ∧
    (solverCalcDt cfl σ).params.motion = σ.params.motion ∧
    (solverCalcDt cfl σ).eles.length = σ.eles.length ∧
    ∀ i, i < σ.eles.length →
      ((solverCalcDt cfl σ).eles.getD i default).U_spts = (σ.eles.getD i default).U_spts ∧
      ((solverCalcDt cfl σ).eles.getD i default).U0 = (σ.eles.getD i default).U0 ∧
      ((solverCalcDt cfl σ).eles.getD i default).divF_spts = (σ.eles.getD i default).divF_spts ∧
      ((solverCalcDt cfl σ).eles.getD i default).detJac_spts = (σ.eles.getD i default).detJac_spts ∧
      ((solverCalcDt cfl σ).eles.getD i default).nSpts = (σ.eles.getD i default).nSpts ∧
      ((solverCalcDt cfl σ).eles.getD i default).nFields = (σ.eles.getD i default).nFields := by
  refine ⟨rfl, rfl, rfl, rfl, rfl, rfl, ?_, fun i hi => ?_⟩
  · show (σ.eles.map _).length = σ.eles.length
    rw [List.length_map]
  · rw [show (solverCalcDt cfl σ).eles.getD i default
        = (fun e => { e with dt := eleCalcDt cfl σ.params e }) (σ.eles.getD i default)
      from getD_map _ σ.eles i hi]
    exact ⟨rfl, rfl, rfl, rfl, rfl, rfl⟩

theorem preStages_frame (cfl : ℕ → ℚ) (σ : SolverState) :
    (preStages cfl σ).params.time = σ.params.time ∧
    (preStages cfl σ).params.dtType = σ.params.dtType ∧
    (preStages cfl σ).params.nRKSteps = σ.params.nRKSteps ∧
    (preStages cfl σ).params.RKa = σ.params.RKa ∧
    (preStages cfl σ).params.RKb = σ.params.RKb ∧
    (preStages cfl σ).params.motion = σ.params.motion ∧
    (preStages cfl σ).eles.length = σ.eles.length ∧
    ∀ i, i < σ.eles.length →
      ((preStages cfl σ).eles.getD i default).U_spts = (σ.eles.getD i default).U_spts ∧
      ((preStages cfl σ).eles.getD i default).U0 = (σ.eles.getD i default).U0 ∧
      ((preStages cfl σ).eles.getD i default).divF_spts = (σ.eles.getD i default).divF_spts ∧
      ((preStages cfl σ).eles.getD i default).detJac_spts = (σ.eles.getD i default).detJac_spts ∧
      ((preStages cfl σ).eles.getD i default).nSpts = (σ.eles.getD i default).nSpts ∧
      ((preStages cfl σ).eles.getD i default).nFields = (σ.eles.getD i default).nFields := by
  have hs := solverCalcDt_frame cfl
    { σ with params := { σ.params with iter := σ.params.iter + 1 } }
  unfold preStages
  dsimp only
  split
  · obtain ⟨h1, h2, h3, h4, h5, h6, h8, h9⟩ := hs
    exact ⟨h1, h2, h3, h4, h5, h6, h8, h9⟩
  · exact ⟨rfl, rfl, rfl, rfl, rfl, rfl, rfl,
      fun i hi => ⟨rfl, rfl, rfl, rfl, rfl, rfl⟩⟩

theorem moveMesh_static (M : ℕ → SolverState → SolverState) (k : ℕ) (σ : SolverState)
    (hm : σ.params.motion = 0) :
    moveMeshModel M k (setRkTime k σ) = setRkTime k σ := by
  simp [moveMeshModel, setRkTime, hm]

theorem finalBlock_spec (M R : ℕ → SolverState → SolverState)
    (hRp : ∀ s σ, (R s σ).params = σ.params)
    (hRlen : ∀ s σ, (R s σ).eles.length = σ.eles.length)
    (hRele : ∀ s σ i, i < σ.eles.length →
      ((R s σ).eles.getD i default).U0 = (σ.eles.getD i default).U0 ∧
      ((R s σ).eles.getD i default).detJac_spts = (σ.eles.getD i default).detJac_spts ∧
      ((R s σ).eles.getD i default).nSpts = (σ.eles.getD i default).nSpts ∧
      ((R s σ).eles.getD i default).nFields = (σ.eles.getD i default).nFields)
    (S : ℕ) (σc : SolverState) (hm : σc.params.motion = 0) :
    (if 1 < S then mapEles copyU0_Uspts
        (R (S - 1) (moveMeshModel M (S - 1) (setRkTime (S - 1) σc)))
      else R (S - 1) (moveMeshModel M (S - 1) (setRkTime (S - 1) σc))).params
      = (setRkTime (S - 1) σc).params ∧
    (if 1 < S then mapEles copyU0_Uspts
        (R (S - 1) (moveMeshModel M (S - 1) (setRkTime (S - 1) σc)))
      else R (S - 1) (moveMeshModel M (S - 1) (setRkTime (S - 1) σc))).eles.length
      = σc.eles.length ∧
    ∀ i, i < σc.eles.length →
      ((if 1 < S then mapEles copyU0_Uspts
          (R (S - 1) (moveMeshModel M (S - 1) (setRkTime (S - 1) σc)))
        else R (S - 1) (moveMeshModel M (S - 1) (setRkTime (S - 1) σc))).eles.getD i default).U0
        = (σc.eles.getD i default).U0 ∧
      ((if 1 < S then mapEles copyU0_Uspts
          (R (S - 1) (moveMeshModel M (S - 1) (setRkTime (S - 1) σc)))
        else R (S - 1) (moveMeshModel M (S - 1) (setRkTime (S - 1) σc))).eles.getD
          i default).detJac_spts
        = (σc.eles.getD i default).detJac_spts ∧
      ((if 1 < S then mapEles copyU0_Uspts
          (R (S - 1) (moveMeshModel M (S - 1) (setRkTime (S - 1) σc)))
        else R (S - 1) (moveMeshModel M (S - 1) (setRkTime (S - 1) σc))).eles.getD
          i default).nSpts
        = (σc.eles.getD i default).nSpts ∧
      ((if 1 < S then mapEles copyU0_Uspts
          (R (S - 1) (moveMeshModel M (S - 1) (setRkTime (S - 1) σc)))
        else R (S - 1) (moveMeshModel M (S - 1) (setRkTime (S - 1) σc))).eles.getD
          i default).nFields
        = (σc.eles.getD i default).nFields ∧
      (1 < S →
        ((if 1 < S then mapEles copyU0_Uspts
            (R (S - 1) (moveMeshModel M (S - 1) (setRkTime (S - 1) σc)))
          else R (S - 1) (moveMeshModel M (S - 1) (setRkTime (S - 1) σc))).eles.getD
            i default).U_spts
          = (σc.eles.getD i default).U0) := by
  rw [moveMesh_static M (S - 1) σc hm]
  by_cases h1S : 1 < S
  · rw [if_pos h1S]
    refine ⟨hRp _ _, ?_, fun i hi => ?_⟩
    · show ((R (S - 1) (setRkTime (S - 1) σc)).eles.map copyU0_Uspts).length = σc.eles.length
      rw [List.length_map, hRlen]
      rfl
    · have hi' : i < (setRkTime (S - 1) σc).eles.length := hi
      have hiR : i < (R (S - 1) (setRkTime (S - 1) σc)).eles.length := by
        rw [hRlen]
        exact hi'
      have hmapg := getD_map copyU0_Uspts (R (S - 1) (setRkTime (S - 1) σc)).eles i hiR
      obtain ⟨hU0, hdj, hns, hnf⟩ := hRele (S - 1) (setRkTime (S - 1) σc) i hi'
      rw [show (mapEles copyU0_Uspts (R (S - 1) (setRkTime (S - 1) σc))).eles.getD i default
          = copyU0_Uspts ((R (S - 1) (setRkTime (S - 1) σc)).eles.getD i default) from hmapg]
      exact ⟨hU0, hdj, hns, hnf, fun _ => hU0⟩
  · rw [if_neg h1S]
    refine ⟨hRp _ _, ?_, fun i hi => ?_⟩
    · rw [hRlen]
      rfl
    · obtain ⟨hU0, hdj, hns, hnf⟩ := hRele (S - 1) (setRkTime (S - 1) σc) i hi
      exact ⟨hU0, hdj, hns, hnf, fun h => absurd h h1S⟩

/-- The state after the intermediate `timeStepA` stages of `solver::update`
(stages `0..S-2`, including `iter++` and the optional `calcDt`). -/
def updMid (M R : ℕ → SolverState → SolverState) (cfl : ℕ → ℚ)
    (σ0 : SolverState) : SolverState :=
  stageLoopA M R false ((preStages cfl σ0).params.nRKSteps - 1) (preStages cfl σ0)

/-- The state after the final-stage residual and the (conditional) restore
`U = U0` of `solver::update`, just before the `timeStepB` loop. -/
def updRestore (M R : ℕ → SolverState → SolverState) (cfl : ℕ → ℚ)
    (σ0 : SolverState) : SolverState :=
  let S := (preStages cfl σ0).params.nRKSteps
  let σc := updMid M R cfl σ0
  if 1 < S then mapEles copyU0_Uspts
      (R (S - 1) (moveMeshModel M (S - 1) (setRkTime (S - 1) σc)))
  else R (S - 1) (moveMeshModel M (S - 1) (setRkTime (S - 1) σc))

theorem update_eq_eles (M R : ℕ → SolverState → SolverState) (cfl : ℕ → ℚ)
    (σ0 : SolverState) :
    (update M R false cfl σ0).eles
      = (stageLoopB false (preStages cfl σ0).params.nRKSteps
          (updRestore M R cfl σ0)).eles := rfl

theorem update_eq_time (M R : ℕ → SolverState → SolverState) (cfl : ℕ → ℚ)
    (σ0 : SolverState) :
    (update M R false cfl σ0).params.time
      = (stageLoopB false (preStages cfl σ0).params.nRKSteps
          (updRestore M R cfl σ0)).params.time
        + (stageLoopB false (preStages cfl σ0).params.nRKSteps
            (updRestore M R cfl σ0)).params.dt := rfl

theorem update_eq_dt (M R : ℕ → SolverState → SolverState) (cfl : ℕ → ℚ)
    (σ0 : SolverState) :
    (update M R false cfl σ0).params.dt
      = (stageLoopB false (preStages cfl σ0).params.nRKSteps
          (updRestore M R cfl σ0)).params.dt := rfl

/-- C1: one `solver::update` call is the RK scheme of the spec.
`ele::timeStepA(s, a)` writes `U = U0 - a*dt*divF[s]/detJac` and
`ele::timeStepB(s, b)` writes `U = U - b*dt*divF[s]/detJac` at every
solution point and field; during `update` every intermediate stage
`s = 0..S-2` leaves each element in exactly that `timeStepA` form with
coefficient `RKa[s+1]`, after the final-stage residual the solution is
restored to the stage-0 snapshot (`U = U0`, exactly once, only when
`S > 1`), the `timeStepB` loop accumulates all `S` stage contributions
`RKb[s]*dt*divF[s]/detJac` on top of that snapshot, and the simulation
time advances by exactly `params->dt`.  The mesh is static
(`motion = 0`) and the residual pipeline is an arbitrary transformer `R`
that preserves the parameter object, the element count and each
element's `U0`, `detJac_spts` and array sizes. -/
theorem update_RK_spec (M R : ℕ → SolverState → SolverState) (cfl : ℕ → ℚ)
    (σ0 : SolverState)
    (hMotion : σ0.params.motion = 0)
    (hRp : ∀ s σ, (R s σ).params = σ.params)
    (hRlen : ∀ s σ, (R s σ).eles.length = σ.eles.length)
    (hRele : ∀ s σ i, i < σ.eles.length →
      ((R s σ).eles.getD i default).U0 = (σ.eles.getD i default).U0 ∧
      ((R s σ).eles.getD i default).detJac_spts = (σ.eles.getD i default).detJac_spts ∧
      ((R s σ).eles.getD i default).nSpts = (σ.eles.getD i default).nSpts ∧
      ((R s σ).eles.getD i default).nFields = (σ.eles.getD i default).nFields) :
    (∀ (p : FlowParams) (step : ℕ) (rk : ℚ) (e : EleState) (spt fld : ℕ),
      spt < e.nSpts → fld < e.nFields →
      (timeStepA p step rk e).U_spts spt fld
        = e.U0 spt fld
          - rk * (timeStepA p step rk e).dt * e.divF_spts step spt fld
            / e.detJac_spts spt) ∧
    (∀ (p : FlowParams) (step : ℕ) (rk : ℚ) (e : EleState) (spt fld : ℕ),
      spt < e.nSpts → fld < e.nFields →
      (timeStepB p step rk e).U_spts spt fld
        = e.U_spts spt fld
          - rk * (timeStepB p step rk e).dt * e.divF_spts step spt fld
            / e.detJac_spts spt) ∧
    (update M R false cfl σ0).params.time
      = σ0.params.time + (update M R false cfl σ0).params.dt ∧
    (∀ s : ℕ, s + 1 < σ0.params.nRKSteps → ∀ i, i < σ0.eles.length →
      ∀ spt fld : ℕ,
      spt < ((stageLoopA M R false (s + 1) (preStages cfl σ0)).eles.getD i default).nSpts →
      fld < ((stageLoopA M R false (s + 1) (preStages cfl σ0)).eles.getD i default).nFields →
      ((stageLoopA M R false (s + 1) (preStages cfl σ0)).eles.getD i default).U_spts spt fld
        = ((stageLoopA M R false (s + 1) (preStages cfl σ0)).eles.getD i default).U0 spt fld
          - σ0.params.RKa.getD (s + 1) 0
            * ((stageLoopA M R false (s + 1) (preStages cfl σ0)).eles.getD i default).dt
            * ((stageLoopA M R false (s + 1) (preStages cfl σ0)).eles.getD
                i default).divF_spts s spt fld
            / ((stageLoopA M R false (s + 1) (preStages cfl σ0)).eles.getD
                i default).detJac_spts spt) ∧
    (1 < σ0.params.nRKSteps → ∀ i, i < σ0.eles.length →
      ((update M R false cfl σ0).eles.getD i default).U0
        = (σ0.eles.getD i default).U_spts ∧
      ∀ spt fld : ℕ,
        spt < ((update M R false cfl σ0).eles.getD i default).nSpts →
        fld < ((update M R false cfl σ0).eles.getD i default).nFields →
        ((update M R false cfl σ0).eles.getD i default).U_spts spt fld
          = ((update M R false cfl σ0).eles.getD i default).U0 spt fld
            - ∑ s ∈ Finset.range σ0.params.nRKSteps,
                σ0.params.RKb.getD s 0
                * (if σ0.params.dtType ≠ 2 then (update M R false cfl σ0).params.dt
                   else ((update M R false cfl σ0).eles.getD i default).dt)
                * ((update M R false cfl σ0).eles.getD i default).divF_spts s spt fld
                / ((update M R false cfl σ0).eles.getD i default).detJac_spts spt) := by
  obtain ⟨hbt, hbdty, hbnrk, hba, hbb, hbm, hblen, hbele⟩ := preStages_frame cfl σ0
  have hm2 : (preStages cfl σ0).params.motion = 0 := hbm.trans hMotion
  have hmid := stageLoopA_spec M R hRp hRlen hRele (preStages cfl σ0) hm2
    ((preStages cfl σ0).params.nRKSteps - 1)
  have hmidT : (updMid M R cfl σ0).params.time = (preStages cfl σ0).params.time := hmid.1
  have hmidDty : (updMid M R cfl σ0).params.dtType
      = (preStages cfl σ0).params.dtType := hmid.2.2.1
  have hmidRKb : (updMid M R cfl σ0).params.RKb
      = (preStages cfl σ0).params.RKb := hmid.2.2.2.2.2.1
  have hmidMot : (updMid M R cfl σ0).params.motion = 0 := hmid.2.2.2.2.2.2.1
  have hmidLen : (updMid M R cfl σ0).eles.length
      = (preStages cfl σ0).eles.length := hmid.2.2.2.2.2.2.2.1
  have hmidU0 : ∀ i, i < (preStages cfl σ0).eles.length →
      1 ≤ (preStages cfl σ0).params.nRKSteps - 1 →
      ((updMid M R cfl σ0).eles.getD i default).U0
        = ((preStages cfl σ0).eles.getD i default).U_spts :=
    fun i hi hk => (hmid.2.2.2.2.2.2.2.2 i hi).2.2.2 hk
  have hfb := finalBlock_spec M R hRp hRlen hRele (preStages cfl σ0).params.nRKSteps
    (updMid M R cfl σ0) hmidMot
  have hgp : (updRestore M R cfl σ0).params
      = (setRkTime ((preStages cfl σ0).params.nRKSteps - 1)
          (updMid M R cfl σ0)).params := hfb.1
  have hglen : (updRestore M R cfl σ0).eles.length
      = (updMid M R cfl σ0).eles.length := hfb.2.1
  have hgele : ∀ i, i < (updMid M R cfl σ0).eles.length →
      ((updRestore M R cfl σ0).eles.getD i default).U0
        = ((updMid M R cfl σ0).eles.getD i default).U0 ∧
      ((updRestore M R cfl σ0).eles.getD i default).detJac_spts
        = ((updMid M R cfl σ0).eles.getD i default).detJac_spts ∧
      ((updRestore M R cfl σ0).eles.getD i default).nSpts
        = ((updMid M R cfl σ0).eles.getD i default).nSpts ∧
      ((updRestore M R cfl σ0).eles.getD i default).nFields
        = ((updMid M R cfl σ0).eles.getD i default).nFields ∧
      (1 < (preStages cfl σ0).params.nRKSteps →
        ((updRestore M R cfl σ0).eles.getD i default).U_spts
          = ((updMid M R cfl σ0).eles.getD i default).U0) := hfb.2.2
  obtain ⟨hhp, hhlen, hhele⟩ := stageLoopB_spec (updRestore M R cfl σ0)
    (preStages cfl σ0).params.nRKSteps
  refine ⟨?_, ?_, ?_, ?_, ?_⟩
  · intro p step rk e spt fld h1 h2
    simp only [timeStepA]
    rw [if_pos ⟨h1, h2⟩]
  · intro p step rk e spt fld h1 h2
    simp only [timeStepB]
    rw [if_pos ⟨h1, h2⟩]
  · rw [update_eq_time M R cfl σ0, update_eq_dt M R cfl σ0, hhp, hgp]
    have htime : (setRkTime ((preStages cfl σ0).params.nRKSteps - 1)
        (updMid M R cfl σ0)).params.time = σ0.params.time := hmidT.trans hbt
    rw [htime]
  · intro s hsS i hi spt fld
    obtain ⟨_, _, _, _, hcaS, _, hcmS, hclenS, _⟩ :=
      stageLoopA_spec M R hRp hRlen hRele (preStages cfl σ0) hm2 s
    obtain ⟨hdp, hdl, hde⟩ := doStageA_spec M R hRp hRlen hRele s
      (stageLoopA M R false s (preStages cfl σ0)) hcmS
    have hi2 : i < (stageLoopA M R false s (preStages cfl σ0)).eles.length := by
      rw [hclenS, hblen]
      exact hi
    obtain ⟨_, _, _, _, hval⟩ := hde i hi2
    have hA : stageLoopA M R false (s + 1) (preStages cfl σ0)
        = doStageA M R false s (stageLoopA M R false s (preStages cfl σ0)) := rfl
    rw [hA]
    intro hspt hfld
    rw [hval spt fld hspt hfld]
    rw [show (stageLoopA M R false s (preStages cfl σ0)).params.RKa = σ0.params.RKa from
      hcaS.trans hba]
  · intro hS i hi
    have h1S' : 1 < (preStages cfl σ0).params.nRKSteps := by
      rw [hbnrk]
      exact hS
    have hk1 : 1 ≤ (preStages cfl σ0).params.nRKSteps - 1 := by omega
    have hiB : i < (preStages cfl σ0).eles.length := by
      rw [hblen]
      exact hi
    have hiM : i < (updMid M R cfl σ0).eles.length := by
      rw [hmidLen]
      exact hiB
    have hiG : i < (updRestore M R cfl σ0).eles.length := by
      rw [hglen]
      exact hiM
    obtain ⟨hhU0, hhdf, hhdj, hhns, hhnf, hhdt, hhu⟩ := hhele i hiG
    obtain ⟨hgU0, hgdj, hgns, hgnf, hgUsp⟩ := hgele i hiM
    obtain ⟨hbUsp, hbU0, hbdf, hbdj, hbns, hbnf⟩ := hbele i hi
    constructor
    · rw [update_eq_eles M R cfl σ0, hhU0, hgU0, hmidU0 i hiB hk1, hbUsp]
    · intro spt fld hspt hfld
      rw [update_eq_eles M R cfl σ0] at hspt hfld ⊢
      rw [update_eq_dt M R cfl σ0]
      rw [hhns] at hspt
      rw [hhnf] at hfld
      rw [hhu spt fld, if_pos ⟨hspt, hfld⟩, hhU0, hhdf, hhdj, hhdt, hhp,
        hgU0, hgUsp h1S']
      have hgRKb : (updRestore M R cfl σ0).params.RKb = σ0.params.RKb := by
        rw [hgp]
        exact hmidRKb.trans hbb
      have hgdty : (updRestore M R cfl σ0).params.dtType = σ0.params.dtType := by
        rw [hgp]
        exact hmidDty.trans hbdty
      rw [hgRKb, hgdty, hbnrk]
      rw [if_neg (show ¬ σ0.params.nRKSteps = 0 by omega)]
      by_cases h2 : σ0.params.dtType ≠ 2
      · simp only [if_pos h2]
      · simp only [if_neg h2]

/-- Concrete RK2 parameter set for exercising `solver::update`. -/
def c1Params : FlowParams where
  dtType := 0
  dt := 1/10
  nRKSteps := 2
  RKa := [0, 1/2]
  RKb := [1/2, 1/2]
  time := 0
  rkTime := 0
  iter := 0
  motion := 0
  nDims := 2
  gamma := 7/5
  exps0 := 0
  CFL := 1
  powGamma := id

def c1State : SolverState := { params := c1Params, eles := [default] }

/-- Identity state transformer (residual / mesh-motion stand-in). -/
def idXform : ℕ → SolverState → SolverState := fun _ σ => σ

/-- Witness for `update_RK_spec`: on a static RK2 configuration with an
identity residual transformer all hypotheses hold, and `update` advances
the simulation time by exactly `dt`. -/
theorem update_RK_spec_witness :
    c1State.params.motion = 0 ∧
    (update idXform idXform false (fun _ => 1) c1State).params.time
      = c1State.params.time
        + (update idXform idXform false (fun _ => 1) c1State).params.dt :=
  ⟨rfl, (update_RK_spec idXform idXform (fun _ => 1) c1State rfl
      (fun _ _ => rfl) (fun _ _ => rfl)
      (fun _ _ _ _ => ⟨rfl, rfl, rfl, rfl⟩)).2.2.1⟩
